import Mathlib

/-!
Verification of the `unreal_asset` package codec (getong/unrealmodding,
`src/unreal_asset/src/lib.rs`).

The Rust code is shallowly embedded: byte streams are `List Nat` (each entry a
byte value), machine integers are `Nat`/`Int` with explicit two's-complement
encoding at the byte boundary, fallible code returns `Except AErr`.  A Rust
`panic` (out-of-bounds index, arithmetic overflow in debug builds) is embedded
as the distinguished error `AErr.panicked`.

Code of the repository that lives in modules not provided with the sources
(`error.rs`, `types.rs`, `object_version.rs`, `flags.rs`, the `unreal_helpers`
fstring codec, `crc.rs`, the `Usmap` schema provider and the export-body
codecs) is modelled from the specification; each such definition carries a
doc comment beginning `Modelled from the spec:`.
-/

set_option maxRecDepth 200000

namespace UnrealAsset

/-- Error taxonomy of the crate.  Modelled from the spec: `error.rs` is not in
the provided sources; §7 of the spec lists the kinds, and `lib.rs` constructs
them through the constructors `Error::invalid_file`, `Error::no_data`,
`Error::invalid_package_index`, `Error::fname` and I/O pass-through.
`panicked` stands for a Rust panic (OOB indexing / debug-mode arithmetic
overflow), which aborts instead of returning. -/
inductive AErr where
  | invalidFile (msg : String)
  | unsupported (msg : String)
  | noData (msg : String)
  | invalidPackageIndex (msg : String)
  | fnameErr (index : Int) (nameMapLen : Nat)
  | noMapping (name : String)
  | ioErr
  | panicked (msg : String)
  deriving DecidableEq

instance instDecEqExcept {ε α : Type} [DecidableEq ε] [DecidableEq α] :
    DecidableEq (Except ε α) := fun x y =>
  match x, y with
  | .ok a, .ok b =>
      if h : a = b then isTrue (by rw [h]) else isFalse (by simp [h])
  | .error a, .error b =>
      if h : a = b then isTrue (by rw [h]) else isFalse (by simp [h])
  | .ok _, .error _ => isFalse (by simp)
  | .error _, .ok _ => isFalse (by simp)

/-- Little-endian byte encoding of a `u32` (value taken mod 2^32),
as produced by `byteorder::LittleEndian::write_u32`. -/
def u32le (v : Nat) : List Nat :=
  let w := v % 4294967296
  [w % 256, w / 256 % 256, w / 65536 % 256, w / 16777216 % 256]

/-- Big-endian byte encoding of a `u32` (used only for the asset magic). -/
def u32be (v : Nat) : List Nat :=
  let w := v % 4294967296
  [w / 16777216 % 256, w / 65536 % 256, w / 256 % 256, w % 256]

/-- Little-endian two's-complement encoding of an `i32`. -/
def i32le (v : Int) : List Nat :=
  u32le (v % 4294967296).toNat

/-- Little-endian byte encoding of a `u16`. -/
def u16le (v : Nat) : List Nat :=
  let w := v % 65536
  [w % 256, w / 256 % 256]

/-- Little-endian two's-complement encoding of an `i64`. -/
def i64le (v : Int) : List Nat :=
  let w := (v % 18446744073709551616).toNat
  [w % 256, w / 256 % 256, w / 65536 % 256, w / 16777216 % 256,
   w / 4294967296 % 256, w / 1099511627776 % 256,
   w / 281474976710656 % 256, w / 72057594037927936 % 256]

/-- Consume exactly `n` bytes from the stream (the crate's `read_exact` into an
`n`-byte buffer); an exhausted stream is an I/O error. -/
def readBytes (n : Nat) (s : List Nat) : Except AErr (List Nat × List Nat) :=
  if n ≤ s.length then .ok (s.take n, s.drop n) else .error .ioErr

/-- `byteorder` little-endian `read_u32`. -/
def readU32le : List Nat → Except AErr (Nat × List Nat)
  | b0 :: b1 :: b2 :: b3 :: rest =>
      .ok (b0 % 256 + 256 * (b1 % 256) + 65536 * (b2 % 256) + 16777216 * (b3 % 256), rest)
  | _ => .error .ioErr

/-- `byteorder` big-endian `read_u32`. -/
def readU32be : List Nat → Except AErr (Nat × List Nat)
  | b0 :: b1 :: b2 :: b3 :: rest =>
      .ok (b3 % 256 + 256 * (b2 % 256) + 65536 * (b1 % 256) + 16777216 * (b0 % 256), rest)
  | _ => .error .ioErr

/-- `byteorder` little-endian `read_i32` (two's complement). -/
def readI32le (s : List Nat) : Except AErr (Int × List Nat) :=
  match readU32le s with
  | .error e => .error e
  | .ok (u, s) =>
      .ok (if u % 4294967296 < 2147483648 then ((u % 4294967296 : Nat) : Int)
           else ((u % 4294967296 : Nat) : Int) - 4294967296, s)

/-- `byteorder` little-endian `read_u16`. -/
def readU16le : List Nat → Except AErr (Nat × List Nat)
  | b0 :: b1 :: rest => .ok (b0 % 256 + 256 * (b1 % 256), rest)
  | _ => .error .ioErr

/-- `byteorder` little-endian `read_i64` (two's complement). -/
def readI64le : List Nat → Except AErr (Int × List Nat)
  | b0 :: b1 :: b2 :: b3 :: b4 :: b5 :: b6 :: b7 :: rest =>
      let u := b0 % 256 + 256 * (b1 % 256) + 65536 * (b2 % 256) + 16777216 * (b3 % 256)
        + 4294967296 * (b4 % 256) + 1099511627776 * (b5 % 256)
        + 281474976710656 * (b6 % 256) + 72057594037927936 * (b7 % 256)
      .ok (if u < 9223372036854775808 then (u : Int) else (u : Int) - 18446744073709551616,
        rest)
  | _ => .error .ioErr

/-- Decode a byte list as a string, one character per byte. -/
def stringOfBytes (bs : List Nat) : String :=
  String.mk (bs.map (fun b => Char.ofNat (b % 256)))

/-- Decode UTF-16LE byte pairs as a string. -/
def stringOfUtf16Bytes : List Nat → List Char
  | lo :: hi :: rest => Char.ofNat (lo % 256 + 256 * (hi % 256)) :: stringOfUtf16Bytes rest
  | _ => []

/-- Modelled from the spec: `unreal_helpers::UnrealReadExt::read_fstring` is not in
the provided sources.  Spec §6: an fstring is an i32 length; 0 means `None`;
positive means `length-1` ASCII bytes plus a NUL; negative means `-length`
UTF-16LE code units whose last is a NUL. -/
def readFString (s : List Nat) : Except AErr (Option String × List Nat) :=
  match readI32le s with
  | .error e => .error e
  | .ok (len, s) =>
    if len = 0 then .ok (none, s)
    else if 0 < len then
      match readBytes len.toNat s with
      | .error e => .error e
      | .ok (bs, s) => .ok (some (stringOfBytes (bs.take (len.toNat - 1))), s)
    else
      match readBytes (2 * (-len).toNat) s with
      | .error e => .error e
      | .ok (bs, s) =>
          .ok (some (String.mk (stringOfUtf16Bytes (bs.take (2 * ((-len).toNat - 1))))), s)

/-- Modelled from the spec: `unreal_helpers::UnrealWriteExt::write_fstring` is not in
the provided sources.  Spec §6: `None` is written as length 0; an ASCII string as
i32 `len+1`, the bytes, and a NUL; a non-ASCII string as the negated length and
UTF-16LE code units ending in a NUL16. -/
def writeFString : Option String → List Nat
  | none => i32le 0
  | some str =>
      if str.toList.all (fun c => c.toNat < 128) then
        i32le ((str.toList.length : Int) + 1) ++ str.toList.map (fun c => c.toNat) ++ [0]
      else
        i32le (-((str.toList.length : Int) + 1))
          ++ (str.toList.map (fun c => u16le c.toNat)).flatten ++ [0, 0]

/-- `FEngineVersion` (src/unreal_asset/src/lib.rs). -/
structure FEngineVersionM where
  major : Nat
  minor : Nat
  patch : Nat
  build : Nat
  branch : Option String
  deriving DecidableEq

/-- `FEngineVersion::unknown`. -/
def FEngineVersionM.unknownEV : FEngineVersionM := ⟨0, 0, 0, 0, none⟩

/-- `FEngineVersion::read`: three u16s, a u32 build and an fstring branch. -/
def readFEngineVersion (s : List Nat) : Except AErr (FEngineVersionM × List Nat) :=
  match readU16le s with
  | .error e => .error e
  | .ok (major, s) =>
    match readU16le s with
    | .error e => .error e
    | .ok (minor, s) =>
      match readU16le s with
      | .error e => .error e
      | .ok (patch, s) =>
        match readU32le s with
        | .error e => .error e
        | .ok (build, s) =>
          match readFString s with
          | .error e => .error e
          | .ok (branch, s) => .ok (⟨major, minor, patch, build, branch⟩, s)

/-- `FEngineVersion::write`. -/
def writeFEngineVersion (v : FEngineVersionM) : List Nat :=
  u16le v.major ++ u16le v.minor ++ u16le v.patch ++ u32le v.build ++ writeFString v.branch

/-- Object-version gate constants used by the codec.  Modelled from the spec:
the `ObjectVersion` enum (`object_version.rs`) is not in the provided sources;
§4.1 names these gates and treats them as plain `≥` predicates over the engine's
published enumeration, whose values are used here.  Only their relative order
matters to the claims. -/
def VER_UE4_WORLD_LEVEL_INFO : Int := 224

/-- Gate: a single chunk id followed the summary (see `VER_UE4_WORLD_LEVEL_INFO`). -/
def VER_UE4_ADDED_CHUNKID_TO_ASSETDATA_AND_UPACKAGE : Int := 278

/-- Gate: recorded engine version block present. -/
def VER_UE4_ENGINE_VERSION_OBJECT : Int := 336

/-- Gate: the chunk id became an i32-counted array. -/
def VER_UE4_CHANGED_CHUNKID_TO_BE_AN_ARRAY_OF_CHUNKIDS : Int := 362

/-- Gate: `not_always_loaded_for_editor_game` present in export headers. -/
def VER_UE4_LOAD_FOR_EDITOR_GAME : Int := 365

/-- Gate: soft package reference count/offset present. -/
def VER_UE4_ADD_STRING_ASSET_REFERENCES_MAP : Int := 384

/-- Gate: compatible engine version block present. -/
def VER_UE4_PACKAGE_SUMMARY_HAS_COMPATIBLE_ENGINE_VERSION : Int := 444

/-- Gate: gatherable text data count/offset present. -/
def VER_UE4_SERIALIZE_TEXT_IN_PACKAGES : Int := 459

/-- Gate: `is_asset` present in export headers. -/
def VER_UE4_COOKED_ASSETS_IN_EDITOR_SUPPORT : Int := 482

/-- Gate: name hashes serialized with the name map. -/
def VER_UE4_NAME_HASHES_SERIALIZED : Int := 504

/-- Gate: preload dependencies present. -/
def VER_UE4_PRELOAD_DEPENDENCIES_IN_COOKED_EXPORTS : Int := 507

/-- Gate: `template_index` present in export headers. -/
def VER_UE4_TEMPLATE_INDEX_IN_COOKED_EXPORTS : Int := 508

/-- Gate: searchable names offset present. -/
def VER_UE4_ADDED_SEARCHABLE_NAMES : Int := 510

/-- Gate: 64-bit export map serial sizes/offsets. -/
def VER_UE4_EXPORTMAP_SERIALSIZES_64BIT : Int := 511

/-- The asset magic `C1 83 2A 9E` (big-endian u32), `UE4_ASSET_MAGIC` in lib.rs. -/
def UE4_ASSET_MAGIC : Nat := 0xC1832A9E

/-- The fields of `Asset` that `parse_header` populates
(src/unreal_asset/src/lib.rs, `Asset::parse_header`). -/
structure PState where
  objectVersion : Int
  legacyFileVersion : Int
  unversioned : Bool
  fileLicenseVersion : Int
  customVersions : List (List Nat × Int)
  headerOffset : Int
  folderName : String
  packageFlags : Nat
  nameCount : Int
  nameOffset : Int
  gatherableTextDataCount : Int
  gatherableTextDataOffset : Int
  exportCount : Int
  exportOffset : Int
  importCount : Int
  importOffset : Int
  dependsOffset : Int
  softPackageReferenceCount : Int
  softPackageReferenceOffset : Int
  searchableNamesOffset : Int
  thumbnailTableOffset : Int
  packageGuid : List Nat
  generations : List (Int × Int)
  engineVersionRecorded : FEngineVersionM
  engineVersionCompatible : FEngineVersionM
  compressionFlags : Nat
  packageSource : Nat
  assetRegistryDataOffset : Int
  bulkDataStartOffset : Int
  worldTileInfoOffset : Int
  chunkIds : List Int
  preloadDependencyCount : Int
  preloadDependencyOffset : Int
  deriving DecidableEq

/-- The field defaults of `Asset::new` (before `set_engine_version` and parsing);
`object_version` is the `UNKNOWN` sentinel 0. -/
def initPState : PState where
  objectVersion := 0
  legacyFileVersion := 0
  unversioned := true
  fileLicenseVersion := 0
  customVersions := []
  headerOffset := 0
  folderName := ""
  packageFlags := 0
  nameCount := 0
  nameOffset := 0
  gatherableTextDataCount := 0
  gatherableTextDataOffset := 0
  exportCount := 0
  exportOffset := 0
  importCount := 0
  importOffset := 0
  dependsOffset := 0
  softPackageReferenceCount := 0
  softPackageReferenceOffset := 0
  searchableNamesOffset := 0
  thumbnailTableOffset := 0
  packageGuid := List.replicate 16 0
  generations := []
  engineVersionRecorded := FEngineVersionM.unknownEV
  engineVersionCompatible := FEngineVersionM.unknownEV
  compressionFlags := 0
  packageSource := 0
  assetRegistryDataOffset := 0
  bulkDataStartOffset := 0
  worldTileInfoOffset := 0
  chunkIds := []
  preloadDependencyCount := 0
  preloadDependencyOffset := 0

/-- The 4 legacy padding bytes after `legacy_file_version` in `parse_header`
(lib.rs lines 1139-1142): consumed exactly when the legacy version is not -4. -/
def parsePadding (legacyFileVersion : Int) (s : List Nat) : Except AErr (List Nat) :=
  if legacyFileVersion ≠ -4 then
    match readBytes 4 s with
    | .error e => .error e
    | .ok (_, s) => .ok s
  else .ok s

/-- Modelled from the spec: `ObjectVersion` is a `#[repr(i32)]` enum whose module is
not in the provided sources; per spec §4.2 step 3 a nonzero file version is taken as
the object version, so the `TryInto` conversion is embedded as the identity. -/
def tryIntoObjectVersion (v : Int) : Except AErr Int := .ok v

/-- The custom-version container loop of `parse_header`: `n` entries of a 16-byte
guid and an i32 version. -/
def readCustomVersions (n : Nat) (acc : List (List Nat × Int)) (s : List Nat) :
    Except AErr (List (List Nat × Int) × List Nat) :=
  match n with
  | 0 => .ok (acc, s)
  | n + 1 =>
    match readBytes 16 s with
    | .error e => .error e
    | .ok (g, s) =>
      match readI32le s with
      | .error e => .error e
      | .ok (v, s) => readCustomVersions n (acc ++ [(g, v)]) s

/-- `parse_header` stage 1 (lib.rs 1128-1176): magic, legacy version, padding,
file version, license version, custom-version container. -/
def stage1 (st : PState) (s : List Nat) : Except AErr (PState × List Nat) :=
  match readU32be s with
  | .error e => .error e
  | .ok (magic, s) =>
    if magic ≠ UE4_ASSET_MAGIC then .error (.invalidFile "File is not a valid uasset file")
    else match readI32le s with
    | .error e => .error e
    | .ok (lfv, s) =>
      let st := { st with legacyFileVersion := lfv }
      match parsePadding lfv s with
      | .error e => .error e
      | .ok s =>
        match readI32le s with
        | .error e => .error e
        | .ok (fv0, s) =>
          match tryIntoObjectVersion fv0 with
          | .error e => .error e
          | .ok fileVersion =>
            let st := { st with unversioned := fileVersion == 0 }
            if fileVersion = (0 : Int) ∧ st.objectVersion = (0 : Int) then
              .error (.invalidFile "Cannot begin serialization of an unversioned asset before an engine version is manually specified")
            else
              let st := if fileVersion = 0 then st
                        else { st with objectVersion := fileVersion }
              match readI32le s with
              | .error e => .error e
              | .ok (flv, s) =>
                let st := { st with fileLicenseVersion := flv }
                if st.legacyFileVersion ≤ -2 then
                  match readI32le s with
                  | .error e => .error e
                  | .ok (cvc, s) =>
                    match readCustomVersions cvc.toNat [] s with
                    | .error e => .error e
                    | .ok (cvs, s) =>
                        .ok ({ st with customVersions := st.customVersions ++ cvs }, s)
                else .ok (st, s)

/-- Modelled from the spec: `EPackageFlags::from_bits` (`flags.rs` is not in the
provided sources); spec §4.2 step 5 reads the package flags unconditionally, so
the conversion is embedded as total.  All concrete inputs below use flag word 0,
which every bitflags type accepts. -/
def packageFlagsFromBits (v : Nat) : Option Nat := some v

/-- The generations loop of `parse_header`: `n` pairs of i32s. -/
def readGenerations (n : Nat) (acc : List (Int × Int)) (s : List Nat) :
    Except AErr (List (Int × Int) × List Nat) :=
  match n with
  | 0 => .ok (acc, s)
  | n + 1 =>
    match readI32le s with
    | .error e => .error e
    | .ok (ec, s) =>
      match readI32le s with
      | .error e => .error e
      | .ok (nc, s) => readGenerations n (acc ++ [(ec, nc)]) s

/-- `parse_header` stage 2 (lib.rs 1178-1227): header offset, folder name, package
flags, table counts and offsets, package guid, generations. -/
def stage2 (st : PState) (s : List Nat) : Except AErr (PState × List Nat) :=
  match readI32le s with
  | .error e => .error e
  | .ok (headerOffset, s) =>
    match readFString s with
    | .error e => .error e
    | .ok (folderOpt, s) =>
      match folderOpt with
      | none => .error (.noData "folder_name is None")
      | some folderName =>
        match readU32le s with
        | .error e => .error e
        | .ok (flagBits, s) =>
          match packageFlagsFromBits flagBits with
          | none => .error (.invalidFile "Invalid package flags")
          | some packageFlags =>
            match readI32le s with
            | .error e => .error e
            | .ok (nameCount, s) =>
              match readI32le s with
              | .error e => .error e
              | .ok (nameOffset, s) =>
                let st := { st with headerOffset, folderName, packageFlags,
                                    nameCount, nameOffset }
                match ((if VER_UE4_SERIALIZE_TEXT_IN_PACKAGES ≤ st.objectVersion then
                        match readI32le s with
                        | .error e => .error e
                        | .ok (gc, s) =>
                          match readI32le s with
                          | .error e => .error e
                          | .ok (go, s) =>
                              .ok ({ st with gatherableTextDataCount := gc,
                                             gatherableTextDataOffset := go }, s)
                       else .ok (st, s)) : Except AErr (PState × List Nat)) with
                | .error e => .error e
                | .ok (st, s) =>
                  match readI32le s with
                  | .error e => .error e
                  | .ok (exportCount, s) =>
                    match readI32le s with
                    | .error e => .error e
                    | .ok (exportOffset, s) =>
                      match readI32le s with
                      | .error e => .error e
                      | .ok (importCount, s) =>
                        match readI32le s with
                        | .error e => .error e
                        | .ok (importOffset, s) =>
                          match readI32le s with
                          | .error e => .error e
                          | .ok (dependsOffset, s) =>
                            let st := { st with exportCount, exportOffset, importCount,
                                                importOffset, dependsOffset }
                            match ((if VER_UE4_ADD_STRING_ASSET_REFERENCES_MAP ≤ st.objectVersion then
                                    match readI32le s with
                                    | .error e => .error e
                                    | .ok (sc, s) =>
                                      match readI32le s with
                                      | .error e => .error e
                                      | .ok (so, s) =>
                                          .ok ({ st with softPackageReferenceCount := sc,
                                                         softPackageReferenceOffset := so }, s)
                                   else .ok (st, s)) : Except AErr (PState × List Nat)) with
                            | .error e => .error e
                            | .ok (st, s) =>
                              match ((if VER_UE4_ADDED_SEARCHABLE_NAMES ≤ st.objectVersion then
                                      match readI32le s with
                                      | .error e => .error e
                                      | .ok (sn, s) =>
                                          .ok ({ st with searchableNamesOffset := sn }, s)
                                     else .ok (st, s)) : Except AErr (PState × List Nat)) with
                              | .error e => .error e
                              | .ok (st, s) =>
                                match readI32le s with
                                | .error e => .error e
                                | .ok (thumb, s) =>
                                  match readBytes 16 s with
                                  | .error e => .error e
                                  | .ok (guid, s) =>
                                    match readI32le s with
                                    | .error e => .error e
                                    | .ok (genCount, s) =>
                                      match readGenerations genCount.toNat [] s with
                                      | .error e => .error e
                                      | .ok (gens, s) =>
                                          .ok ({ st with thumbnailTableOffset := thumb,
                                                         packageGuid := guid,
                                                         generations := st.generations ++ gens }, s)

/-- `parse_header` stage 3 (lib.rs 1229-1242): recorded and compatible engine
versions.  Below `VER_UE4_ENGINE_VERSION_OBJECT` the recorded version is
synthesized as `(4,0,0,build,None)`; below the compatible-version gate the
compatible version is a clone of the recorded one. -/
def stage3 (st : PState) (s : List Nat) : Except AErr (PState × List Nat) :=
  match ((if VER_UE4_ENGINE_VERSION_OBJECT ≤ st.objectVersion then
          readFEngineVersion s
         else
          match readU32le s with
          | .error e => .error e
          | .ok (build, s) => .ok ((⟨4, 0, 0, build, none⟩ : FEngineVersionM), s)) : Except AErr (FEngineVersionM × List Nat)) with
  | .error e => .error e
  | .ok (recorded, s) =>
    let st := { st with engineVersionRecorded := recorded }
    if VER_UE4_PACKAGE_SUMMARY_HAS_COMPATIBLE_ENGINE_VERSION ≤ st.objectVersion then
      match readFEngineVersion s with
      | .error e => .error e
      | .ok (compat, s) => .ok ({ st with engineVersionCompatible := compat }, s)
    else .ok ({ st with engineVersionCompatible := st.engineVersionRecorded }, s)

/-- `parse_header` stage 4 (lib.rs 1244-1269): compression data, package source,
`additional_to_cook`, texture allocations.  A nonzero compression block count or
a nonzero `additional_to_cook` aborts the parse with `Error::invalid_file`. -/
def stage4 (st : PState) (s : List Nat) : Except AErr (PState × List Nat) :=
  match readU32le s with
  | .error e => .error e
  | .ok (compressionFlags, s) =>
    match readU32le s with
    | .error e => .error e
    | .ok (compressionBlockCount, s) =>
      if 0 < compressionBlockCount then
        .error (.invalidFile "Compression block count is not zero")
      else
        match readU32le s with
        | .error e => .error e
        | .ok (packageSource, s) =>
          match readI32le s with
          | .error e => .error e
          | .ok (additionalToCook, s) =>
            if additionalToCook ≠ 0 then
              .error (.invalidFile "Additional to cook is not zero")
            else
              let st := { st with compressionFlags, packageSource }
              if -7 < st.legacyFileVersion then
                match readI32le s with
                | .error e => .error e
                | .ok (textureAllocationsCount, s) =>
                  if textureAllocationsCount ≠ 0 then
                    .error (.invalidFile "Texture allocations count is not zero")
                  else .ok (st, s)
              else .ok (st, s)

/-- `parse_header` stage 5 (lib.rs 1271-1276): asset-registry offset, bulk data
start offset, gated world-tile offset. -/
def stage5 (st : PState) (s : List Nat) : Except AErr (PState × List Nat) :=
  match readI32le s with
  | .error e => .error e
  | .ok (ar, s) =>
    match readI64le s with
    | .error e => .error e
    | .ok (bulk, s) =>
      let st := { st with assetRegistryDataOffset := ar, bulkDataStartOffset := bulk }
      if VER_UE4_WORLD_LEVEL_INFO ≤ st.objectVersion then
        match readI32le s with
        | .error e => .error e
        | .ok (wt, s) => .ok ({ st with worldTileInfoOffset := wt }, s)
      else .ok (st, s)

/-- The chunk-id array loop of `parse_header`. -/
def readChunkIds (n : Nat) (acc : List Int) (s : List Nat) :
    Except AErr (List Int × List Nat) :=
  match n with
  | 0 => .ok (acc, s)
  | n + 1 =>
    match readI32le s with
    | .error e => .error e
    | .ok (v, s) => readChunkIds n (acc ++ [v]) s

/-- `Vec` index assignment `v[i] = x`: in-bounds update, or a panic. -/
def listSet (l : List α) (i : Nat) (a : α) : Option (List α) :=
  if i < l.length then some (l.set i a) else none

/-- `parse_header` stage 6 (lib.rs 1278-1291): chunk ids.  At or above the
array gate an i32-counted array is read; otherwise, at or above the single-id
gate, the code sets `chunk_ids` to an empty vector and then assigns
`chunk_ids[0]`, which is an out-of-bounds index — a panic. -/
def stage6 (st : PState) (s : List Nat) : Except AErr (PState × List Nat) :=
  if VER_UE4_CHANGED_CHUNKID_TO_BE_AN_ARRAY_OF_CHUNKIDS ≤ st.objectVersion then
    match readI32le s with
    | .error e => .error e
    | .ok (cnt, s) =>
      match readChunkIds cnt.toNat [] s with
      | .error e => .error e
      | .ok (ids, s) => .ok ({ st with chunkIds := st.chunkIds ++ ids }, s)
  else if VER_UE4_ADDED_CHUNKID_TO_ASSETDATA_AND_UPACKAGE ≤ st.objectVersion then
    let st := { st with chunkIds := [] }
    match readI32le s with
    | .error e => .error e
    | .ok (v, s) =>
      match listSet st.chunkIds 0 v with
      | none => .error (.panicked "index out of bounds: the len is 0 but the index is 0")
      | some ids => .ok ({ st with chunkIds := ids }, s)
  else .ok (st, s)

/-- `parse_header` stage 7 (lib.rs 1293-1296): preload dependency count/offset. -/
def stage7 (st : PState) (s : List Nat) : Except AErr (PState × List Nat) :=
  if VER_UE4_PRELOAD_DEPENDENCIES_IN_COOKED_EXPORTS ≤ st.objectVersion then
    match readI32le s with
    | .error e => .error e
    | .ok (pc, s) =>
      match readI32le s with
      | .error e => .error e
      | .ok (po, s) =>
          .ok ({ st with preloadDependencyCount := pc, preloadDependencyOffset := po }, s)
  else .ok (st, s)

/-- `parse_header` stages 1-3 composed: everything before the compression
data. -/
def parsePre (st : PState) (s : List Nat) : Except AErr (PState × List Nat) :=
  match stage1 st s with
  | .error e => .error e
  | .ok (st, s) =>
    match stage2 st s with
    | .error e => .error e
    | .ok (st, s) => stage3 st s

/-- `Asset::parse_header` (lib.rs 1124-1298), as the composition of its seven
linear stages. -/
def parseHeader (st : PState) (s : List Nat) : Except AErr (PState × List Nat) :=
  match parsePre st s with
  | .error e => .error e
  | .ok (st, s) =>
    match stage4 st s with
    | .error e => .error e
    | .ok (st, s) =>
      match stage5 st s with
      | .error e => .error e
      | .ok (st, s) =>
        match stage6 st s with
        | .error e => .error e
        | .ok (st, s) => stage7 st s

/-- `FName` (`types.rs` is not in the provided sources; field shapes follow their
uses in lib.rs: `FName::new(content, number)` stores the string `content` and the
display number in the field named `index`). -/
structure FNameM where
  content : String
  index : Int
  deriving DecidableEq

/-- `Asset::get_name_reference` (lib.rs 1354-1362). -/
def getNameReference (nameMap : List String) (index : Int) : String :=
  if index < 0 then toString (-index)
  else if (nameMap.length : Int) ≤ index then toString index
  else nameMap.getD index.toNat ""

/-- `Asset::read_fname` (lib.rs 910-925): two i32s (name-map pointer, number);
an out-of-range pointer is `Error::fname`. -/
def readFName (nameMap : List String) (s : List Nat) : Except AErr (FNameM × List Nat) :=
  match readI32le s with
  | .error e => .error e
  | .ok (nameMapPointer, s) =>
    match readI32le s with
    | .error e => .error e
    | .ok (number, s) =>
      if nameMapPointer < 0 ∨ (nameMap.length : Int) ≤ nameMapPointer then
        .error (.fnameErr nameMapPointer nameMap.length)
      else
        .ok (⟨getNameReference nameMap nameMapPointer, number⟩, s)

/-- `Asset::search_name_reference` (lib.rs 1322-1327): a lookup keyed by the
`DefaultHasher` hash of the string.  Spec §9: the in-memory lookup hash "may be
any deterministic function"; the embedding keys the lookup by the string itself. -/
def searchNameReference (lookup : List (String × Int)) (name : String) : Option Int :=
  (lookup.find? (fun p => p.1 == name)).map Prod.snd

/-- `AssetSerializer::write_fname` (lib.rs 435-448): look the content up in the
name map, else `Error::no_data`; on success write the map index then the number. -/
def writeFName (lookup : List (String × Int)) (f : FNameM) : Except AErr (List Nat) :=
  match searchNameReference lookup f.content with
  | none => .error (.noData ("name reference for " ++ f.content
      ++ " not found, you might want to rebuild the name map"))
  | some idx => .ok (i32le idx ++ i32le f.index)

/-- Modelled from the spec: `PackageIndex::is_import` (`types.rs` is not
provided); spec §3: a negative index addresses an import. -/
def packageIndexIsImport (index : Int) : Bool := index < 0

/-- `Import` (lib.rs 120-129). -/
structure ImportM where
  classPackage : FNameM
  className : FNameM
  outerIndex : Int
  objectName : FNameM
  deriving DecidableEq

/-- `Asset::get_import` (lib.rs 867-878).  The bound check admits
`index == imports.len()` (it tests `index > len`, not `>=`), in which case the
final `self.imports[index]` panics. -/
def getImport (imports : List ImportM) (index : Int) : Except AErr (Option ImportM) :=
  if ¬ packageIndexIsImport index then .ok none
  else
    let i := -index - 1
    if i < 0 ∨ (imports.length : Int) < i then .ok none
    else
      match imports.get? i.toNat with
      | some imp => .ok (some imp)
      | none => .error (.panicked "index out of bounds")

/-- `BaseExport` (`exports/base_export.rs` is not in the provided sources; the
fields are exactly those `Asset::write_export_header` serializes). -/
structure BaseExportM where
  classIndex : Int
  superIndex : Int
  templateIndex : Int
  outerIndex : Int
  objectName : FNameM
  objectFlags : Nat
  serialSize : Int
  serialOffset : Int
  forcedExport : Bool
  notForClient : Bool
  notForServer : Bool
  packageGuid : List Nat
  packageFlags : Nat
  notAlwaysLoadedForEditorGame : Bool
  isAsset : Bool
  firstExportDependencyOffset : Int
  serializationBeforeSerializationDependencies : List Int
  createBeforeSerializationDependencies : List Int
  serializationBeforeCreateDependencies : List Int
  createBeforeCreateDependencies : List Int
  deriving DecidableEq

/-- An export, as the writer sees it.  Modelled from the spec: the export-body
codecs (`exports/*.rs`) are not in the provided sources; spec §4.4/§9 treat a
body as an opaque serialized byte range, carried here as `body` (including any
`extras` tail), which `Export::write` emits verbatim. -/
structure ExportM where
  base : BaseExportM
  body : List Nat
  deriving DecidableEq

/-- The in-memory `Asset` fields consumed by `Asset::write_data` and
`Asset::write_header`. -/
structure AssetModel where
  useSeparateBulkDataFiles : Bool
  objectVersion : Int
  legacyFileVersion : Int
  unversioned : Bool
  fileLicenseVersion : Int
  customVersions : List (List Nat × Int)
  generations : List (Int × Int)
  packageGuid : List Nat
  engineVersionRecorded : FEngineVersionM
  engineVersionCompatible : FEngineVersionM
  chunkIds : List Int
  packageFlags : Nat
  packageSource : Nat
  folderName : String
  headerOffset : Int
  nameOffset : Int
  gatherableTextDataCount : Int
  gatherableTextDataOffset : Int
  exportOffset : Int
  importOffset : Int
  dependsOffset : Int
  softPackageReferenceCount : Int
  softPackageReferenceOffset : Int
  searchableNamesOffset : Int
  thumbnailTableOffset : Int
  compressionFlags : Nat
  assetRegistryDataOffset : Int
  bulkDataStartOffset : Int
  worldTileInfoOffset : Int
  preloadDependencyCount : Int
  preloadDependencyOffset : Int
  overrideNameMapHashes : List (String × Nat)
  nameMapIndexList : List String
  nameMapLookup : List (String × Int)
  imports : List ImportM
  exports : List ExportM
  dependsMap : Option (List (List Int))
  softPackageReferenceList : Option (List String)
  worldTileInfo : Option (List Nat)
  deriving DecidableEq

/-- `AssetHeader` (lib.rs 160-183): the offsets back-patched into the header. -/
structure AssetHeaderM where
  nameOffset : Int
  importOffset : Int
  exportOffset : Int
  dependsOffset : Int
  softPackageReferenceOffset : Int
  assetRegistryDataOffset : Int
  worldTileInfoOffset : Int
  preloadDependencyCount : Int
  preloadDependencyOffset : Int
  headerOffset : Int
  bulkDataStartOffset : Int
  deriving DecidableEq

/-- A Rust bool written through `write_i32` as 1 or 0. -/
def boolI32 (b : Bool) : List Nat := i32le (if b then 1 else 0)

/-- The chunk-id block of `Asset::write_header` (lib.rs 1883-1893).  Below the
array gate but at or above the single-id gate the code writes
`self.chunk_ids[0]`, which panics when `chunk_ids` is empty. -/
def writeChunkIds (a : AssetModel) : Except AErr (List Nat) :=
  if VER_UE4_CHANGED_CHUNKID_TO_BE_AN_ARRAY_OF_CHUNKIDS ≤ a.objectVersion then
    .ok (i32le a.chunkIds.length ++ (a.chunkIds.map i32le).flatten)
  else if VER_UE4_ADDED_CHUNKID_TO_ASSETDATA_AND_UPACKAGE ≤ a.objectVersion then
    match a.chunkIds.get? 0 with
    | some c => .ok (i32le c)
    | none => .error (.panicked "index out of bounds: the len is 0 but the index is 0")
  else .ok []

/-- `Asset::write_header` (lib.rs 1786-1901).  Two details are embedded exactly
as the source has them: the legacy padding is written when
`legacy_file_version != 4` (line 1794 — not `-4`), and the compatible-engine-
version block writes `self.engine_version_recorded` a second time (line 1864). -/
def writeHeader (a : AssetModel) (h : AssetHeaderM) : Except AErr (List Nat) :=
  match writeChunkIds a with
  | .error e => .error e
  | .ok chunkBytes => .ok (
      u32be UE4_ASSET_MAGIC
      ++ i32le a.legacyFileVersion
      ++ (if a.legacyFileVersion ≠ 4 then
            (if a.unversioned then i32le 0 else i32le 864) else [])
      ++ (if a.unversioned then i32le 0 else i32le a.objectVersion)
      ++ i32le a.fileLicenseVersion
      ++ (if a.legacyFileVersion ≤ -2 then
            (if a.unversioned then i32le 0
             else i32le a.customVersions.length
               ++ (a.customVersions.map (fun cv => cv.1 ++ i32le cv.2)).flatten)
          else [])
      ++ i32le h.headerOffset
      ++ writeFString (some a.folderName)
      ++ u32le a.packageFlags
      ++ i32le a.nameMapIndexList.length
      ++ i32le h.nameOffset
      ++ (if VER_UE4_SERIALIZE_TEXT_IN_PACKAGES ≤ a.objectVersion then
            i32le a.gatherableTextDataCount ++ i32le a.gatherableTextDataOffset else [])
      ++ i32le a.exports.length
      ++ i32le h.exportOffset
      ++ i32le a.imports.length
      ++ i32le h.importOffset
      ++ i32le h.dependsOffset
      ++ (if VER_UE4_ADD_STRING_ASSET_REFERENCES_MAP ≤ a.objectVersion then
            i32le a.softPackageReferenceCount ++ i32le h.softPackageReferenceOffset else [])
      ++ (if VER_UE4_ADDED_SEARCHABLE_NAMES ≤ a.objectVersion then
            i32le a.searchableNamesOffset else [])
      ++ i32le a.thumbnailTableOffset
      ++ a.packageGuid
      ++ i32le a.generations.length
      ++ (List.replicate a.generations.length
            (i32le a.exports.length ++ i32le a.nameMapIndexList.length)).flatten
      ++ (if VER_UE4_ENGINE_VERSION_OBJECT ≤ a.objectVersion then
            writeFEngineVersion a.engineVersionRecorded
          else u32le a.engineVersionRecorded.build)
      ++ (if VER_UE4_PACKAGE_SUMMARY_HAS_COMPATIBLE_ENGINE_VERSION ≤ a.objectVersion then
            writeFEngineVersion a.engineVersionRecorded
          else [])
      ++ u32le a.compressionFlags
      ++ i32le 0
      ++ u32le a.packageSource
      ++ i32le 0
      ++ (if -7 < a.legacyFileVersion then i32le 0 else [])
      ++ i32le h.assetRegistryDataOffset
      ++ i64le h.bulkDataStartOffset
      ++ (if VER_UE4_WORLD_LEVEL_INFO ≤ a.objectVersion then
            i32le h.worldTileInfoOffset else [])
      ++ chunkBytes
      ++ (if VER_UE4_PRELOAD_DEPENDENCIES_IN_COOKED_EXPORTS ≤ a.objectVersion then
            i32le h.preloadDependencyCount ++ i32le h.preloadDependencyOffset else []))

/-- `Asset::write_export_header` (lib.rs 1904-1974). -/
def writeExportHeader (a : AssetModel) (unk : BaseExportM)
    (serialSize serialOffset : Int) (firstExportDependencyOffset : Int) :
    Except AErr (List Nat) :=
  match writeFName a.nameMapLookup unk.objectName with
  | .error e => .error e
  | .ok nameBytes => .ok (
      i32le unk.classIndex
      ++ i32le unk.superIndex
      ++ (if VER_UE4_TEMPLATE_INDEX_IN_COOKED_EXPORTS ≤ a.objectVersion then
            i32le unk.templateIndex else [])
      ++ i32le unk.outerIndex
      ++ nameBytes
      ++ u32le unk.objectFlags
      ++ (if a.objectVersion < VER_UE4_EXPORTMAP_SERIALSIZES_64BIT then
            i32le serialSize ++ i32le serialOffset
          else i64le serialSize ++ i64le serialOffset)
      ++ boolI32 unk.forcedExport
      ++ boolI32 unk.notForClient
      ++ boolI32 unk.notForServer
      ++ unk.packageGuid
      ++ u32le unk.packageFlags
      ++ (if VER_UE4_LOAD_FOR_EDITOR_GAME ≤ a.objectVersion then
            boolI32 unk.notAlwaysLoadedForEditorGame else [])
      ++ (if VER_UE4_COOKED_ASSETS_IN_EDITOR_SUPPORT ≤ a.objectVersion then
            boolI32 unk.isAsset else [])
      ++ (if VER_UE4_PRELOAD_DEPENDENCIES_IN_COOKED_EXPORTS ≤ a.objectVersion then
            i32le firstExportDependencyOffset
            ++ i32le unk.serializationBeforeSerializationDependencies.length
            ++ i32le unk.createBeforeSerializationDependencies.length
            ++ i32le unk.serializationBeforeCreateDependencies.length
            ++ i32le unk.createBeforeCreateDependencies.length
          else []))

/-- Modelled from the spec: `crc::generate_hash` (`crc.rs` is not in the provided
sources); spec §6 names it a pure u32 hash of the string (a fixed CRC variant whose
polynomial is immaterial to the claims); embedded as a deterministic stand-in. -/
def crcHash (s : String) : Nat :=
  s.toList.foldl (fun acc c => (acc * 31 + c.toNat) % 4294967296) 5381

/-- One entry of the name-table write loop of `write_data` (lib.rs 2043-2052):
the fstring, then (version-gated) the override hash or the CRC hash. -/
def writeNameEntry (a : AssetModel) (name : String) : List Nat :=
  writeFString (some name)
  ++ (if VER_UE4_NAME_HASHES_SERIALIZED ≤ a.objectVersion then
        u32le (match (a.overrideNameMapHashes.find? (fun p => p.1 == name)).map Prod.snd with
               | some e => e
               | none => crcHash name)
      else [])

/-- The import-table write loop body of `write_data` (lib.rs 2059-2064). -/
def writeImport (a : AssetModel) (imp : ImportM) : Except AErr (List Nat) :=
  match writeFName a.nameMapLookup imp.classPackage with
  | .error e => .error e
  | .ok b1 =>
    match writeFName a.nameMapLookup imp.className with
    | .error e => .error e
    | .ok b2 =>
      match writeFName a.nameMapLookup imp.objectName with
      | .error e => .error e
      | .ok b4 => .ok (b1 ++ b2 ++ i32le imp.outerIndex ++ b4)

/-- Concatenate the outputs of a fallible per-element writer. -/
def mapExcept (f : α → Except AErr (List Nat)) : List α → Except AErr (List Nat)
  | [] => .ok []
  | x :: xs =>
    match f x with
    | .error e => .error e
    | .ok b =>
      match mapExcept f xs with
      | .error e => .error e
      | .ok bs => .ok (b ++ bs)

/-- The depends-map write loop of `write_data` (lib.rs 2087-2099): one
length-prefixed i32 list per export (missing rows write as empty). -/
def writeDepends (m : List (List Int)) (n : Nat) : List Nat :=
  ((List.range n).map (fun i =>
    let data := m.getD i []
    i32le data.length ++ (data.map i32le).flatten)).flatten

/-- The combined length of an export's four preload-dependency lists. -/
def exportDepTotal (e : BaseExportM) : Nat :=
  e.serializationBeforeSerializationDependencies.length
  + e.createBeforeSerializationDependencies.length
  + e.serializationBeforeCreateDependencies.length
  + e.createBeforeCreateDependencies.length

/-- The serialized bytes of an export's four preload-dependency lists, packed
end-to-end (lib.rs 2138-2152). -/
def exportDepBytes (e : BaseExportM) : List Nat :=
  (e.serializationBeforeSerializationDependencies.map i32le).flatten
  ++ (e.createBeforeSerializationDependencies.map i32le).flatten
  ++ (e.serializationBeforeCreateDependencies.map i32le).flatten
  ++ (e.createBeforeCreateDependencies.map i32le).flatten

/-- The preload-dependency write loop of `write_data` (lib.rs 2131-2160):
accumulates `preload_dependency_count` while writing each export's lists. -/
def writePreloadDepsAux (exps : List ExportM) (count : Int) (acc : List Nat) :
    Int × List Nat :=
  match exps with
  | [] => (count, acc)
  | e :: rest =>
      writePreloadDepsAux rest (count + (exportDepTotal e.base : Int))
        (acc ++ exportDepBytes e.base)

/-- A seekable write cursor: the buffer and the current position.  `Cursor`
writes overwrite in place and extend past the end. -/
structure WState where
  buf : List Nat
  pos : Nat
  deriving DecidableEq

/-- Overwrite/extend `buf` at `pos` with `bytes` (zero-padding any gap). -/
def bufWrite (buf : List Nat) (pos : Nat) (bytes : List Nat) : List Nat :=
  buf.take pos ++ List.replicate (pos - buf.length) 0 ++ bytes
    ++ buf.drop (pos + bytes.length)

/-- Write `bytes` at the cursor and advance it. -/
def wput (st : WState) (bytes : List Nat) : WState :=
  ⟨bufWrite st.buf st.pos bytes, st.pos + bytes.length⟩

/-- The export-body write loop of `write_data` (lib.rs 2184-2193): records each
export's `category_start` (offset by `final_cursor_pos` in separate-bulk mode)
and emits its body. -/
def writeBodies (sep : Bool) (finalCursorPos : Nat) :
    List ExportM → WState → List Int × WState
  | [], st => ([], st)
  | e :: rest, st =>
      let c : Int := if sep then ((st.pos + finalCursorPos : Nat) : Int) else (st.pos : Int)
      let st := wput st e.body
      let (cs, st') := writeBodies sep finalCursorPos rest st
      (c :: cs, st')

/-- Pass B of `write_data` (lib.rs 2201-2225): for each export, the re-written
header gets `serial_offset = category_starts[i]`,
`serial_size = next_loc - category_starts[i]` (where `next_loc` is the next
export's category start, or `bulk_data_start_offset` for the last export), and
the running `first_export_dependency_offset` (or -1 outside separate-bulk
mode).  Returns the back-patched triples together with the header bytes. -/
def passB (a : AssetModel) (bdso : Int) :
    List ExportM → List Int → Int → Except AErr (List ((Int × Int × Int) × List Nat))
  | [], _, _ => .ok []
  | e :: rest, c :: csTail, fedo =>
      let next := match csTail with
        | [] => bdso
        | c2 :: _ => c2
      let fedoW : Int := if a.useSeparateBulkDataFiles then fedo else -1
      (match writeExportHeader a e.base (next - c) c fedoW with
      | .error err => .error err
      | .ok bytes =>
        match passB a bdso rest csTail (fedo + (exportDepTotal e.base : Int)) with
        | .error err => .error err
        | .ok tail => .ok (((c, next - c, fedoW), bytes) :: tail))
  | _ :: _, [], _ => .error (.panicked "category_starts index out of bounds")

/-- The observable outcome of a successful `write_data` call: the recorded
category starts, the pass-B back-patched `(serial_offset, serial_size,
first_export_dependency_offset)` triples, the final header, and the position at
which the trailing magic was written. -/
structure WriteRecord where
  categoryStarts : List Int
  backPatched : List (Int × Int × Int)
  finalHeader : AssetHeaderM
  magicPos : Int
  deriving DecidableEq

/-- The message of the separate-bulk mismatch error (lib.rs 2010-2017). -/
def bulkMismatchMessage (flag : Bool) (hasUexp : Bool) : String :=
  "use_separate_bulk_data_files is " ++ (if flag then "true" else "false")
    ++ " but uexp_cursor is " ++ (if hasUexp then "Some(...)" else "None")

/-- The tail of `write_data` after the body stream is written: pass B re-writes
the export headers at `export_offset`, then the final header is written at
position 0 and the cursor rewound (lib.rs 2201-2246). -/
def writeDataTail (a : AssetModel) (st : WState) (cs : List Int)
    (hdr : AssetHeaderM) (magicPos : Int) : Except AErr (WriteRecord × WState) :=
  match (if a.exports ≠ [] then passB a hdr.bulkDataStartOffset a.exports cs 0
         else .ok []) with
  | .error e => .error e
  | .ok patched =>
    let st := if a.exports ≠ [] then
        (patched.map Prod.snd).foldl wput { st with pos := hdr.exportOffset.toNat }
      else st
    let st : WState := { st with pos := 0 }
    match writeHeader a hdr with
    | .error e => .error e
    | .ok hdrBytes =>
      let st := wput st hdrBytes
      let st : WState := { st with pos := 0 }
      .ok (⟨cs, patched.map Prod.fst, hdr, magicPos⟩, st)

/-- `Asset::write_data` (lib.rs 2004-2247).  Returns the write outcome together
with the final contents of the main cursor and the optional uexp cursor; on the
guard mismatch both are returned untouched. -/
def write_data (a : AssetModel) (cursor : List Nat) (uexp : Option (List Nat)) :
    Except AErr WriteRecord × List Nat × Option (List Nat) :=
  if a.useSeparateBulkDataFiles ≠ uexp.isSome then
    (.error (.noData (bulkMismatchMessage a.useSeparateBulkDataFiles uexp.isSome)),
      cursor, uexp)
  else
    let header0 : AssetHeaderM :=
      ⟨a.nameOffset, a.importOffset, a.exportOffset, a.dependsOffset,
       a.softPackageReferenceOffset, a.assetRegistryDataOffset, a.worldTileInfoOffset,
       0, a.preloadDependencyOffset, a.headerOffset, a.bulkDataStartOffset⟩
    match writeHeader a header0 with
    | .error e => (.error e, cursor, uexp)
    | .ok hdrBytes =>
      let st : WState := ⟨cursor, 0⟩
      let st := wput st hdrBytes
      let nameOffset : Int := if a.nameMapIndexList ≠ [] then (st.pos : Int) else 0
      let st := wput st ((a.nameMapIndexList.map (writeNameEntry a)).flatten)
      let importOffset : Int := if a.imports ≠ [] then (st.pos : Int) else 0
      match mapExcept (writeImport a) a.imports with
      | .error e => (.error e, st.buf, uexp)
      | .ok importBytes =>
        let st := wput st importBytes
        let exportOffset : Int := if a.exports ≠ [] then (st.pos : Int) else 0
        match mapExcept (fun e => writeExportHeader a e.base e.base.serialSize
            e.base.serialOffset e.base.firstExportDependencyOffset) a.exports with
        | .error e => (.error e, st.buf, uexp)
        | .ok exportHeaderBytes =>
          let st := wput st exportHeaderBytes
          let dependsOffset : Int := if a.dependsMap.isSome then (st.pos : Int) else 0
          let st := wput st (match a.dependsMap with
            | some m => writeDepends m a.exports.length
            | none => [])
          let softOffset : Int :=
            if a.softPackageReferenceList.isSome then (st.pos : Int) else 0
          let st := wput st (match a.softPackageReferenceList with
            | some refs => (refs.map (fun r => writeFString (some r))).flatten
            | none => [])
          let registryOffset : Int :=
            if a.assetRegistryDataOffset ≠ 0 then (st.pos : Int) else 0
          let st := wput st (if a.assetRegistryDataOffset ≠ 0 then i32le 0 else [])
          let worldTileOffset : Int := if a.worldTileInfo.isSome then (st.pos : Int) else 0
          let st := wput st (a.worldTileInfo.getD [])
          let preloadDependencyOffset : Int := (st.pos : Int)
          let pc := if a.useSeparateBulkDataFiles then writePreloadDepsAux a.exports 0 []
                    else (-1, [])
          let st := wput st pc.2
          let headerOffsetVar : Int := if a.exports ≠ [] then (st.pos : Int) else 0
          let finalCursorPos := st.pos
          if a.useSeparateBulkDataFiles then
            let bulkSt : WState := ⟨uexp.getD [], 0⟩
            let (cs, bulkSt) := writeBodies true finalCursorPos a.exports bulkSt
            let magicPos : Int := (finalCursorPos : Int) + (bulkSt.pos : Int)
            let bulkSt := wput bulkSt [0xc1, 0x83, 0x2a, 0x9e]
            let bdso : Int := (finalCursorPos : Int) + (bulkSt.pos : Int) - 4
            let hdr : AssetHeaderM :=
              ⟨nameOffset, importOffset, exportOffset, dependsOffset, softOffset,
               registryOffset, worldTileOffset, pc.1, preloadDependencyOffset,
               headerOffsetVar, bdso⟩
            match writeDataTail a st cs hdr magicPos with
            | .error e => (.error e, st.buf, some bulkSt.buf)
            | .ok (rec, st) => (.ok rec, st.buf, some bulkSt.buf)
          else
            let (cs, st) := writeBodies false finalCursorPos a.exports st
            let magicPos : Int := (st.pos : Int)
            let st := wput st [0xc1, 0x83, 0x2a, 0x9e]
            let bdso : Int := (st.pos : Int) - 4
            let hdr : AssetHeaderM :=
              ⟨nameOffset, importOffset, exportOffset, dependsOffset, softOffset,
               registryOffset, worldTileOffset, pc.1, preloadDependencyOffset,
               headerOffsetVar, bdso⟩
            match writeDataTail a st cs hdr magicPos with
            | .error e => (.error e, st.buf, uexp)
            | .ok (rec, st) => (.ok rec, st.buf, uexp)

/-- The successful outcome of `write_data`, when there is one. -/
def writeDataRecord (a : AssetModel) (cursor : List Nat) (uexp : Option (List Nat)) :
    Option WriteRecord :=
  match write_data a cursor uexp with
  | (.ok r, _, _) => some r
  | _ => none

/-- A property, as `generate_unversioned_header` inspects one.  Modelled from the
spec where the `Property` enum (`properties/mod.rs`) is absent from the provided
sources: only the name, ancestry, duplication index and whether the variant is
the zero/empty sentinel (`Property::EmptyProperty`) are consulted (lib.rs
2269-2285). -/
structure PropertyM where
  name : String
  ancestry : List String
  duplicationIndex : Int
  isEmptySentinel : Bool
  deriving DecidableEq

/-- Modelled from the spec: the `.usmap` SchemaProvider collaborator (§6):
`get_property_with_duplication_index` resolves a property to its global slot
index, `get_all_properties(parent).len()` is the parent schema's size. -/
structure UsmapM where
  resolve : String → List String → Nat → Option Nat
  allPropsCount : String → Nat

/-- `UnversionedHeaderFragment` (`unversioned/header.rs` is absent from the
provided sources; the fields are exactly those lib.rs constructs). -/
structure UnversionedHeaderFragmentM where
  skipNum : Nat
  valueNum : Nat
  firstNum : Nat
  isLast : Bool
  hasZeros : Bool
  deriving DecidableEq

/-- The outcome fields of `UnversionedHeader` that `generate_unversioned_header`
populates (the two iteration cursors always start at zero). -/
structure UnversionedHeaderM where
  fragments : List UnversionedHeaderFragmentM
  zeroMask : List Bool
  hasNonZeroValues : Bool
  unversionedPropertyIndex : Nat
  deriving DecidableEq

/-- `HashSet::insert` on the membership-only model of a hash set. -/
def hashSetInsert (l : List Nat) (x : Nat) : List Nat :=
  if l.contains x then l else l ++ [x]

/-- The first loop of `generate_unversioned_header` (lib.rs 2269-2285): resolve
every property through the schema (a missing mapping is `NoMapping`), track the
min/max global index, the set of present indices and the set of zero indices. -/
def guhCollect (m : UsmapM) :
    List PropertyM → Nat → Nat → List Nat → List Nat →
    Except AErr (Nat × Nat × List Nat × List Nat)
  | [], firstG, lastG, present, zeros => .ok (firstG, lastG, present, zeros)
  | p :: rest, firstG, lastG, present, zeros =>
    match m.resolve p.name p.ancestry ((p.duplicationIndex % 4294967296).toNat) with
    | none => .error (.noMapping p.name)
    | some globalIndex =>
      let zeros := if p.isEmptySentinel then hashSetInsert zeros globalIndex else zeros
      guhCollect m rest (min firstG globalIndex) (max lastG globalIndex)
        (hashSetInsert present globalIndex) zeros

/-- Fuel-driven body of `scanStart`; the fuel bounds the structural recursion
and is chosen so it can never run out. -/
def scanStartAux (present : List Nat) (lastGlobal : Nat) : Nat → Nat → Nat
  | 0, start => start
  | fuel + 1, start =>
    if present.contains start then start
    else if start ≤ lastGlobal then scanStartAux present lastGlobal fuel (start + 1)
    else start

/-- The chunk-scan loop of `generate_unversioned_header` (lib.rs 2298-2303):
advance while the index is absent and not past the maximum.  The loop advances
at most `lastGlobal + 1 - start` times, so fuel `lastGlobal + 2` is ample. -/
def scanStart (present : List Nat) (lastGlobal : Nat) (start : Nat) : Nat :=
  scanStartAux present lastGlobal (lastGlobal + 2) start

/-- The contiguous-chunk loop of `generate_unversioned_header` (lib.rs
2310-2319): walk present indices, noting zeros and pushing
`properties[end_index]` (an index by *global slot*, which panics when it is past
the end of the in-memory property slice). -/
def runChunk (present zeros : List Nat) (props : List PropertyM) :
    Nat → Nat → Bool → List PropertyM → Except AErr (Nat × Bool × List PropertyM)
  | 0, _, _, _ => .error (.panicked "loop fuel exhausted")
  | fuel + 1, endIdx, hz, sorted =>
    if present.contains endIdx then
      let hz := hz || zeros.contains endIdx
      match props.get? endIdx with
      | none => .error (.panicked "index out of bounds")
      | some p => runChunk present zeros props fuel (endIdx + 1) hz (sorted ++ [p])
    else .ok (endIdx, hz, sorted)

/-- Rust `u32` subtraction as the source performs it: an underflow is an
arithmetic-overflow defect — a panic in debug builds (in release builds it wraps
to a value near 2^32, which floods the fragment list through the overflow
loops); embedded as a panic. -/
def checkedSub (a b : Nat) : Except AErr Nat :=
  if b ≤ a then .ok (a - b) else .error (.panicked "attempt to subtract with overflow")

/-- Fuel-driven body of `skipOverflowFrags`. -/
def skipOverflowFragsAux : Nat → Nat → List UnversionedHeaderFragmentM →
    Nat × List UnversionedHeaderFragmentM
  | 0, skip, acc => (skip, acc)
  | fuel + 1, skip, acc =>
    if 127 < skip then
      skipOverflowFragsAux fuel (skip - 127) (acc ++ [⟨127, 0, 0, false, false⟩])
    else (skip, acc)

/-- The `skip_num > i8::MAX` overflow loop (lib.rs 2325-2334); each pass lowers
`skip` by 127, so fuel `skip` is ample. -/
def skipOverflowFrags (skip : Nat) (acc : List UnversionedHeaderFragmentM) :
    Nat × List UnversionedHeaderFragmentM :=
  skipOverflowFragsAux skip skip acc

/-- Fuel-driven body of `valueOverflowFrags`. -/
def valueOverflowFragsAux : Nat → Nat → List UnversionedHeaderFragmentM →
    Nat × List UnversionedHeaderFragmentM
  | 0, value, acc => (value, acc)
  | fuel + 1, value, acc =>
    if 127 < value then
      valueOverflowFragsAux fuel (value - 127) (acc ++ [⟨0, 127, 0, false, false⟩])
    else (value, acc)

/-- The `value_num > i8::MAX` overflow loop (lib.rs 2335-2344); each pass lowers
`value` by 127, so fuel `value` is ample. -/
def valueOverflowFrags (value : Nat) (acc : List UnversionedHeaderFragmentM) :
    Nat × List UnversionedHeaderFragmentM :=
  valueOverflowFragsAux value value acc

/-- The main fragment-generation loop of `generate_unversioned_header` (lib.rs
2294-2357).  `skip_num` is computed as
`start_index - last_num_before_fragment - 1` in `u32` arithmetic and
`last_num_before_fragment` is then set to `end_index - 1`; the subtractions are
embedded checked (see `checkedSub`). -/
def guhLoop (present zeros : List Nat) (props : List PropertyM) (lastGlobal : Nat) :
    Nat → Nat → List UnversionedHeaderFragmentM → List PropertyM →
    Except AErr (List UnversionedHeaderFragmentM × List PropertyM)
  | 0, _, _, _ => .error (.panicked "loop fuel exhausted")
  | fuel + 1, lastNumBeforeFragment, fragments, sorted =>
    let startIndex := scanStart present lastGlobal lastNumBeforeFragment
    if lastGlobal < startIndex then .ok (fragments, sorted)
    else
      match runChunk present zeros props (lastGlobal + 2) startIndex false sorted with
      | .error e => .error e
      | .ok (endIdx, hasZeros, sorted) =>
        match checkedSub startIndex lastNumBeforeFragment with
        | .error e => .error e
        | .ok d1 =>
          match checkedSub d1 1 with
          | .error e => .error e
          | .ok skipNum0 =>
            match checkedSub endIdx 1 with
            | .error e => .error e
            | .ok endM1 =>
              match checkedSub endM1 startIndex with
              | .error e => .error e
              | .ok d2 =>
                let valueNum0 := d2 + 1
                let (skipNum, fragments) := skipOverflowFrags skipNum0 fragments
                let (valueNum, fragments) := valueOverflowFrags valueNum0 fragments
                let fragments := fragments
                  ++ [⟨skipNum % 256, valueNum % 256, startIndex % 256, false, hasZeros⟩]
                match checkedSub endIdx 1 with
                | .error e => .error e
                | .ok lnbf => guhLoop present zeros props lastGlobal fuel lnbf fragments sorted

/-- `fragments.last_mut().is_last = true` (lib.rs 2371-2373). -/
def setLastFragment : List UnversionedHeaderFragmentM → List UnversionedHeaderFragmentM
  | [] => []
  | [f] => [{ f with isLast := true }]
  | f :: rest => f :: setLastFragment rest

/-- The zero-mask build of `generate_unversioned_header` (lib.rs 2375-2386): one
bit per slot of each `has_zeros` fragment (the slot is `first_num + i` in `u8`
arithmetic), tracking whether any such slot is non-zero. -/
def buildZeroMask (zeros : List Nat) (frags : List UnversionedHeaderFragmentM) :
    Bool × List Bool :=
  frags.foldl (fun acc f =>
    if f.hasZeros then
      (List.range f.valueNum).foldl (fun acc2 i =>
        let isZero := zeros.contains ((f.firstNum + i) % 256)
        (acc2.1 || !isZero, acc2.2 ++ [isZero])) acc
    else acc) (false, [])

/-- `Asset::generate_unversioned_header` (lib.rs 2250-2401), over the flag
`has_unversioned_properties`, the optional schema, the in-memory properties and
the parent struct name.  The outer loop carries fuel
`properties.length + last_global_index + 2`, ample for every terminating run. -/
def generateUnversionedHeader (hasUnversionedProperties : Bool)
    (mappings : Option UsmapM) (properties : List PropertyM) (parentName : String) :
    Except AErr (Option (UnversionedHeaderM × List PropertyM)) :=
  if ¬ hasUnversionedProperties then .ok none
  else
    match mappings with
    | none => .ok none
    | some m =>
      match guhCollect m properties 4294967295 0 [] [] with
      | .error e => .error e
      | .ok (_, lastG, present, zeros) =>
        match (if present ≠ [] then
                guhLoop present zeros properties lastG
                  (properties.length + lastG + 2) 0 [] []
               else
                .ok ([⟨min (m.allPropsCount parentName) 127, 0, 0, true, false⟩], [])) with
        | .error e => .error e
        | .ok (fragments, sorted) =>
          let fragments := setLastFragment fragments
          let hz := buildZeroMask zeros fragments
          let upi := (fragments.head?.map (fun f => f.firstNum)).getD 0
          .ok (some (⟨fragments, hz.2, hz.1, upi⟩, sorted))

/-- The schema of spec scenario 5: a parent struct with properties "A", "B", "C"
at global slots 0, 1 and 5, six properties in all. -/
def scenarioUsmap : UsmapM where
  resolve name _ _ :=
    if name = "A" then some 0
    else if name = "B" then some 1
    else if name = "C" then some 5
    else none
  allPropsCount _ := 6

/-- The in-memory properties of spec scenario 5: slots 0 and 5 non-zero, slot 1
the zero/empty sentinel. -/
def scenarioProperties : List PropertyM :=
  [⟨"A", [], 0, false⟩, ⟨"B", [], 0, true⟩, ⟨"C", [], 0, false⟩]

/-- The fragment list claimed for scenario 5. -/
def scenarioClaimedFragments : List UnversionedHeaderFragmentM :=
  [⟨0, 2, 0, false, true⟩, ⟨2, 1, 5, true, false⟩]

/-- A sample recorded engine version. -/
def sampleEngineRecorded : FEngineVersionM := ⟨4, 27, 2, 17155, none⟩

/-- A sample compatible engine version, distinct from the recorded one. -/
def sampleEngineCompatible : FEngineVersionM := ⟨4, 26, 0, 14830, none⟩

/-- A baseline in-memory asset: object version 522 (above every gate used by the
header codec), legacy file version -5, no tables. -/
def baseAsset : AssetModel where
  useSeparateBulkDataFiles := false
  objectVersion := 522
  legacyFileVersion := -5
  unversioned := false
  fileLicenseVersion := 0
  customVersions := []
  generations := []
  packageGuid := List.replicate 16 0
  engineVersionRecorded := sampleEngineRecorded
  engineVersionCompatible := sampleEngineCompatible
  chunkIds := []
  packageFlags := 0
  packageSource := 0
  folderName := "None"
  headerOffset := 0
  nameOffset := 0
  gatherableTextDataCount := 0
  gatherableTextDataOffset := 0
  exportOffset := 0
  importOffset := 0
  dependsOffset := 0
  softPackageReferenceCount := 0
  softPackageReferenceOffset := 0
  searchableNamesOffset := 0
  thumbnailTableOffset := 0
  compressionFlags := 0
  assetRegistryDataOffset := 0
  bulkDataStartOffset := 0
  worldTileInfoOffset := 0
  preloadDependencyCount := 0
  preloadDependencyOffset := 0
  overrideNameMapHashes := []
  nameMapIndexList := []
  nameMapLookup := []
  imports := []
  exports := []
  dependsMap := none
  softPackageReferenceList := none
  worldTileInfo := none

/-- An all-zero back-patch header. -/
def zeroHeader : AssetHeaderM := ⟨0, 0, 0, 0, 0, 0, 0, 0, 0, 0, 0⟩

/-- The asset of the C1 writer check: legacy file version -4. -/
def c1asset : AssetModel := { baseAsset with legacyFileVersion := -4 }

/-- The engine-version compatible field of a parse outcome, when the parse
succeeded. -/
def parsedEngineVersionCompatible (r : Except AErr (PState × List Nat)) :
    Option FEngineVersionM :=
  match r with
  | .ok (st, _) => some st.engineVersionCompatible
  | .error _ => none

/-- A hand-built header byte stream with object version 250 (below the chunk-id
gates), which `parse_header` accepts in full. -/
def c4bytes : List Nat :=
  u32be UE4_ASSET_MAGIC
  ++ i32le (-4)
  ++ i32le 250
  ++ i32le 0
  ++ i32le 0
  ++ i32le 64
  ++ writeFString (some "None")
  ++ u32le 0
  ++ i32le 0 ++ i32le 0
  ++ i32le 0 ++ i32le 0
  ++ i32le 0 ++ i32le 0
  ++ i32le 0
  ++ i32le 0
  ++ List.replicate 16 0
  ++ i32le 0
  ++ u32le 12345
  ++ u32le 0 ++ u32le 0
  ++ u32le 0
  ++ i32le 0
  ++ i32le 0
  ++ i32le 0
  ++ i64le 200
  ++ i32le 0

/-- The parse outcome of `c4bytes`. -/
def c4state : PState :=
  { initPState with
    legacyFileVersion := -4
    unversioned := false
    objectVersion := 250
    headerOffset := 64
    folderName := "None"
    engineVersionRecorded := ⟨4, 0, 0, 12345, none⟩
    engineVersionCompatible := ⟨4, 0, 0, 12345, none⟩
    bulkDataStartOffset := 200 }

/-- A hand-built header byte stream that reaches the compression stage with a
nonzero compression-block count. -/
def c7bytes : List Nat :=
  u32be UE4_ASSET_MAGIC
  ++ i32le (-4)
  ++ i32le 300
  ++ i32le 0
  ++ i32le 0
  ++ i32le 64
  ++ writeFString (some "None")
  ++ u32le 0
  ++ i32le 0 ++ i32le 0
  ++ i32le 0 ++ i32le 0
  ++ i32le 0 ++ i32le 0
  ++ i32le 0
  ++ i32le 0
  ++ List.replicate 16 0
  ++ i32le 0
  ++ u32le 777
  ++ u32le 0
  ++ u32le 1

/-- A sample export header whose object name is "ExportA", with two non-empty
preload-dependency lists. -/
def exportBaseA : BaseExportM where
  classIndex := 1
  superIndex := 0
  templateIndex := 0
  outerIndex := 0
  objectName := ⟨"ExportA", 0⟩
  objectFlags := 0
  serialSize := 0
  serialOffset := 0
  forcedExport := false
  notForClient := false
  notForServer := false
  packageGuid := List.replicate 16 0
  packageFlags := 0
  notAlwaysLoadedForEditorGame := false
  isAsset := true
  firstExportDependencyOffset := 0
  serializationBeforeSerializationDependencies := [2]
  createBeforeSerializationDependencies := []
  serializationBeforeCreateDependencies := [-1]
  createBeforeCreateDependencies := []

/-- A second sample export header, object name "ExportB". -/
def exportBaseB : BaseExportM :=
  { exportBaseA with
    classIndex := 2
    objectName := ⟨"ExportB", 0⟩
    serializationBeforeSerializationDependencies := []
    createBeforeSerializationDependencies := [3]
    serializationBeforeCreateDependencies := [] }

/-- A separate-bulk asset with two exports whose names are interned. -/
def sepAsset : AssetModel :=
  { baseAsset with
    useSeparateBulkDataFiles := true
    nameMapIndexList := ["ExportA", "ExportB"]
    nameMapLookup := [("ExportA", 0), ("ExportB", 1)]
    exports := [⟨exportBaseA, [1, 2, 3]⟩, ⟨exportBaseB, [4, 5]⟩] }

/-- Whether an `Except` carries a success. -/
def exceptIsOk : Except ε α → Bool
  | .ok _ => true
  | .error _ => false

/-- Write the header of `a` (zero back-patch offsets) and re-parse the bytes
from a fresh reader state. -/
def roundTripHeader (a : AssetModel) : Except AErr (PState × List Nat) :=
  match writeHeader a zeroHeader with
  | .ok b => parseHeader initPState b
  | .error e => .error e

/-- The `write_data` outcome for `sepAsset` on empty cursors. -/
def sepRecord : WriteRecord :=
  ⟨[441, 444], [(441, 3, 0), (444, 2, 2)],
   ⟨189, 0, 221, 0, 0, 0, 0, 3, 429, 441, 446⟩, 446⟩

/-- The state after `parsePre` on `c7bytes`. -/
def c7preState : PState :=
  { initPState with
    legacyFileVersion := -4
    unversioned := false
    objectVersion := 300
    headerOffset := 64
    folderName := "None"
    engineVersionRecorded := ⟨4, 0, 0, 777, none⟩
    engineVersionCompatible := ⟨4, 0, 0, 777, none⟩ }

/-- A one-element import table. -/
def sampleImports : List ImportM :=
  [⟨⟨"ScriptCoreUObject", 0⟩, ⟨"Package", 0⟩, 0, ⟨"ScriptCoreUObject", 0⟩⟩]

/-- The total of `exportDepTotal` over a list of exports, as an `Int`. -/
def depTotalsSum (exps : List ExportM) : Int :=
  (exps.map (fun e => (exportDepTotal e.base : Int))).sum

theorem readU32le_u32le (v : Nat) (r : List Nat) :
    readU32le (u32le v ++ r) = .ok (v % 4294967296, r) := by
  simp only [u32le, List.cons_append, List.nil_append, readU32le, Except.ok.injEq,
    Prod.mk.injEq, and_true]
  omega

theorem readU32be_u32be (v : Nat) (r : List Nat) :
    readU32be (u32be v ++ r) = .ok (v % 4294967296, r) := by
  simp only [u32be, List.cons_append, List.nil_append, readU32be, Except.ok.injEq,
    Prod.mk.injEq, and_true]
  omega

theorem readU16le_u16le (v : Nat) (r : List Nat) :
    readU16le (u16le v ++ r) = .ok (v % 65536, r) := by
  simp only [u16le, List.cons_append, List.nil_append, readU16le, Except.ok.injEq,
    Prod.mk.injEq, and_true]
  omega

theorem readI32le_i32le (v : Int) (h1 : -2147483648 ≤ v) (h2 : v < 2147483648)
    (r : List Nat) : readI32le (i32le v ++ r) = .ok (v, r) := by
  simp only [readI32le, i32le, readU32le_u32le, Except.ok.injEq,
    Prod.mk.injEq, and_true]
  split <;> omega

theorem readI64le_i64le (v : Int) (h1 : -9223372036854775808 ≤ v)
    (h2 : v < 9223372036854775808) (r : List Nat) :
    readI64le (i64le v ++ r) = .ok (v, r) := by
  simp only [i64le, List.cons_append, List.nil_append, readI64le, Except.ok.injEq,
    Prod.mk.injEq, and_true]
  split <;> omega

/-- C1: `parse_header` consumes the 4 legacy padding bytes exactly when
`legacy_file_version ≠ -4` (first two conjuncts).  The writer side of the claim
is false: `write_header` tests `legacy_file_version != 4` (lib.rs 1794), so for
an asset with legacy version -4 it still emits the padding word (864 for a
versioned asset) between the legacy version and the object version — the last
two conjuncts exhibit this on `c1asset`. -/
theorem claim1_legacy_padding :
    (∀ s : List Nat, parsePadding (-4) s = .ok s) ∧
    (∀ (lfv : Int) (s : List Nat), lfv ≠ -4 → 4 ≤ s.length →
      parsePadding lfv s = .ok (s.drop 4)) ∧
    (writeHeader c1asset zeroHeader).map (fun b => b.take 16)
      = .ok (u32be UE4_ASSET_MAGIC ++ i32le (-4) ++ i32le 864 ++ i32le 522) ∧
    (writeHeader c1asset zeroHeader).map (fun b => b.take 12)
      ≠ .ok (u32be UE4_ASSET_MAGIC ++ i32le (-4) ++ i32le 522) := by
  refine ⟨fun s => by simp [parsePadding], fun lfv s h h4 => ?_, by decide, by decide⟩
  simp [parsePadding, h, readBytes, h4]

/-- Witness for C1: the padding conjuncts evaluated on a concrete stream. -/
theorem claim1_legacy_padding_witness :
    parsePadding (-4) [9, 9, 9, 9, 5] = .ok [9, 9, 9, 9, 5] ∧
    parsePadding (-5) [9, 9, 9, 9, 5] = .ok [5] :=
  ⟨claim1_legacy_padding.1 _, claim1_legacy_padding.2.1 (-5) _ (by decide) (by decide)⟩

/-- C2: on the spec's scenario 5 (slots 0, 1, 5 of one parent, slot 1 zero),
`generate_unversioned_header` does not return the claimed two-fragment header:
its first-chunk `skip_num` computation `start_index - last_num_before_fragment - 1`
evaluates `0 - 0 - 1` in `u32` arithmetic, an underflow (a panic in debug
builds; a wrap to 2^32 - 1 in release builds, which floods the fragment list
with overflow fragments instead of producing the claimed header). -/
theorem claim2_unversioned_scenario5_panics :
    generateUnversionedHeader true (some scenarioUsmap) scenarioProperties "Parent"
      = .error (.panicked "attempt to subtract with overflow") ∧
    scenarioClaimedFragments.length = 2 := by
  constructor
  · decide
  · decide

/-- C3: writing the header of `baseAsset` (object version 522, above the
compatible-engine-version gate) and re-reading it yields a compatible engine
version equal to the *recorded* one — `write_header` serializes
`engine_version_recorded` in the compatible block (lib.rs 1864) — while the
asset's own compatible version differs, so the write-read identity on this
field fails. -/
theorem claim3_compatible_engine_version_lost :
    parsedEngineVersionCompatible (roundTripHeader baseAsset)
      = some baseAsset.engineVersionRecorded ∧
    baseAsset.engineVersionCompatible ≠ baseAsset.engineVersionRecorded ∧
    VER_UE4_PACKAGE_SUMMARY_HAS_COMPATIBLE_ENGINE_VERSION ≤ baseAsset.objectVersion := by
  refine ⟨by decide, by decide, by decide⟩

/-- C9: `write_data` rejects a separate-bulk flag/uexp-cursor mismatch with the
`NoData` guard error before writing anything: both output streams are returned
exactly as supplied. -/
theorem claim9_bulk_mode_mismatch (a : AssetModel) (cursor : List Nat)
    (uexp : Option (List Nat)) (h : a.useSeparateBulkDataFiles ≠ uexp.isSome) :
    write_data a cursor uexp
      = (.error (.noData (bulkMismatchMessage a.useSeparateBulkDataFiles uexp.isSome)),
         cursor, uexp) := by
  rw [write_data, if_pos h]

/-- Witness for C9: both mismatch directions, untouched outputs. -/
theorem claim9_bulk_mode_mismatch_witness :
    write_data { baseAsset with useSeparateBulkDataFiles := true } [] none
      = (.error (.noData (bulkMismatchMessage true false)), [], none) ∧
    write_data baseAsset [7] (some [9])
      = (.error (.noData (bulkMismatchMessage false true)), [7], some [9]) :=
  ⟨claim9_bulk_mode_mismatch _ _ _ (by decide),
   claim9_bulk_mode_mismatch _ _ _ (by decide)⟩

/-- C10: `get_import` returns `None` for non-imports and for computed indices
strictly beyond the import count, and `Some imports[-index-1]` in range; but at
`index = -(imports.len()+1)` the off-by-one bound check (`index > len`, lib.rs
873) lets the computed index `len` through to `self.imports[len]`, which
panics instead of returning `None` — shown by the last conjunct on an
empty import table. -/
theorem claim10_get_import_bounds :
    (∀ (imports : List ImportM) (idx : Int), ¬ idx < 0 →
      getImport imports idx = .ok none) ∧
    (∀ (imports : List ImportM) (k : Nat), k < imports.length →
      getImport imports (-(k : Int) - 1) = .ok (imports.get? k)) ∧
    (∀ (imports : List ImportM) (idx : Int), idx < 0 →
      (imports.length : Int) < -idx - 1 → getImport imports idx = .ok none) ∧
    getImport ([] : List ImportM) (-1) = .error (.panicked "index out of bounds") := by
  refine ⟨?_, ?_, ?_, by decide⟩
  · intro imports idx h
    simp [getImport, packageIndexIsImport, h]
  · intro imports k hk
    have h0 : packageIndexIsImport (-(k : Int) - 1) = true := by
      simp only [packageIndexIsImport, decide_eq_true_eq]
      omega
    have h1 : -(-(k : Int) - 1) - 1 = (k : Int) := by ring
    rw [getImport]
    simp only [h0, Bool.not_true, Bool.false_eq_true, not_false_iff, if_neg, h1]
    have h2 : ¬ ((k : Int) < 0 ∨ (imports.length : Int) < (k : Int)) := by omega
    rw [if_neg h2]
    have h3 : (k : Int).toNat = k := by omega
    rw [h3]
    cases hg : imports.get? k with
    | none =>
        rw [List.get?_eq_none] at hg
        omega
    | some imp => rfl
  · intro imports idx h hlen
    have h0 : packageIndexIsImport idx = true := by
      simp only [packageIndexIsImport, decide_eq_true_eq]
      omega
    rw [getImport]
    simp only [h0, Bool.not_true, Bool.false_eq_true, not_false_iff, if_neg]
    split
    · rfl
    · rw [if_pos (Or.inr hlen)]

/-- Witness for C10: the total parts of `get_import` on a one-import table. -/
theorem claim10_get_import_bounds_witness :
    getImport sampleImports 3 = .ok none ∧
    getImport sampleImports (-1) = .ok (sampleImports.get? 0) ∧
    getImport sampleImports (-3) = .ok none :=
  ⟨claim10_get_import_bounds.1 sampleImports 3 (by decide),
   claim10_get_import_bounds.2.1 sampleImports 0 (by decide),
   claim10_get_import_bounds.2.2.1 sampleImports (-3) (by decide) (by decide)⟩

/-- C8: FName I/O.  `read_fname` reads the two i32s `(index, number)` and fails
with `Error::fname` exactly when the index is outside `[0, name map length)`,
otherwise returning the FName with the name-map entry at the index and the read
number.  `write_fname` fails with `NoData` exactly when the content string has
no name-map lookup entry, and otherwise writes the looked-up index then the
FName's number. -/
theorem claim8_fname_io :
    (∀ (nm : List String) (idx num : Int) (r : List Nat),
      -2147483648 ≤ idx → idx < 2147483648 →
      -2147483648 ≤ num → num < 2147483648 →
      readFName nm (i32le idx ++ i32le num ++ r)
        = if 0 ≤ idx ∧ idx < (nm.length : Int)
          then .ok (⟨nm.getD idx.toNat "", num⟩, r)
          else .error (.fnameErr idx nm.length)) ∧
    (∀ (lookup : List (String × Int)) (f : FNameM),
      (writeFName lookup f
          = .error (.noData ("name reference for " ++ f.content
              ++ " not found, you might want to rebuild the name map"))
        ↔ searchNameReference lookup f.content = none) ∧
      (∀ idx, searchNameReference lookup f.content = some idx →
        writeFName lookup f = .ok (i32le idx ++ i32le f.index))) := by
  constructor
  · intro nm idx num r h1 h2 h3 h4
    simp only [readFName, List.append_assoc, readI32le_i32le idx h1 h2,
      readI32le_i32le num h3 h4]
    by_cases hc : 0 ≤ idx ∧ idx < (nm.length : Int)
    · rw [if_pos hc]
      have hnot : ¬ (idx < 0 ∨ (nm.length : Int) ≤ idx) := by omega
      simp only [hnot, if_false, if_neg hnot]
      have hg : getNameReference nm idx = nm.getD idx.toNat "" := by
        rw [getNameReference, if_neg (by omega), if_neg (by omega)]
      rw [hg]
    · rw [if_neg hc]
      have hor : idx < 0 ∨ (nm.length : Int) ≤ idx := by omega
      rw [if_pos hor]
  · intro lookup f
    refine ⟨⟨fun h => ?_, fun hs => ?_⟩, fun idx hs => ?_⟩
    · cases hs : searchNameReference lookup f.content with
      | none => rfl
      | some i => rw [writeFName, hs] at h; cases h
    · rw [writeFName, hs]
    · rw [writeFName, hs]

/-- Witness for C8: reads and writes on concrete two-entry maps. -/
theorem claim8_fname_io_witness :
    readFName ["Alpha", "Beta"] (i32le 1 ++ i32le 7 ++ [5]) = .ok (⟨"Beta", 7⟩, [5]) ∧
    readFName ["Alpha", "Beta"] (i32le 5 ++ i32le 0 ++ []) = .error (.fnameErr 5 2) ∧
    writeFName [("Alpha", 0)] ⟨"Alpha", 3⟩ = .ok (i32le 0 ++ i32le 3) ∧
    writeFName [("Alpha", 0)] ⟨"Gamma", 0⟩
      = .error (.noData ("name reference for " ++ "Gamma"
          ++ " not found, you might want to rebuild the name map")) :=
  ⟨(claim8_fname_io.1 ["Alpha", "Beta"] 1 7 [5] (by decide) (by decide) (by decide)
      (by decide)).trans (by decide),
   (claim8_fname_io.1 ["Alpha", "Beta"] 5 0 [] (by decide) (by decide) (by decide)
      (by decide)).trans (by decide),
   (claim8_fname_io.2 [("Alpha", 0)] ⟨"Alpha", 3⟩).2 0 (by decide),
   (claim8_fname_io.2 [("Alpha", 0)] ⟨"Gamma", 0⟩).1.mpr (by decide)⟩

/-- C7 counterexample: a header stream whose compression-block count is 1 makes
`parse_header` fail with `Error::invalid_file` — not the `Unsupported` kind the
claim names. -/
theorem claim7_counterexample :
    parseHeader initPState c7bytes
      = .error (.invalidFile "Compression block count is not zero") := by decide

/-- C7 (amended): a nonzero compression-block count, or a nonzero
`additional_to_cook`, makes stage 4 of `parse_header` fail with an
`InvalidFile`-kind error (`Error::invalid_file` in the source), and a stage-4
error is fatal to the whole parse. -/
theorem claim7_nonzero_counts_invalid_file :
    (∀ (st : PState) (cf cbc : Nat) (r : List Nat), cbc < 4294967296 → cbc ≠ 0 →
      stage4 st (u32le cf ++ u32le cbc ++ r)
        = .error (.invalidFile "Compression block count is not zero")) ∧
    (∀ (st : PState) (cf ps : Nat) (atc : Int) (r : List Nat),
      -2147483648 ≤ atc → atc < 2147483648 → atc ≠ 0 →
      stage4 st (u32le cf ++ u32le 0 ++ u32le ps ++ i32le atc ++ r)
        = .error (.invalidFile "Additional to cook is not zero")) ∧
    (∀ (st st4 : PState) (s s4 : List Nat) (e : AErr),
      parsePre st s = .ok (st4, s4) → stage4 st4 s4 = .error e →
      parseHeader st s = .error e) := by
  refine ⟨?_, ?_, ?_⟩
  · intro st cf cbc r hlt hne
    simp only [stage4, List.append_assoc, readU32le_u32le, Nat.mod_eq_of_lt hlt]
    rw [if_pos (Nat.pos_of_ne_zero hne)]
  · intro st cf ps atc r ha1 ha2 hane
    simp only [stage4, List.append_assoc, readU32le_u32le,
      readI32le_i32le atc ha1 ha2, Nat.zero_mod]
    rw [if_neg (by omega : ¬ (0 : Nat) < 0), if_pos hane]
  · intro st st4 s s4 e hpre h4
    simp only [parseHeader, hpre, h4]

/-- Witness for C7: the amended theorem applied at concrete streams, including
the full parse of `c7bytes` through the stage-1-3 state `c7preState`. -/
theorem claim7_nonzero_counts_witness :
    stage4 initPState (u32le 0 ++ u32le 1 ++ [])
      = .error (.invalidFile "Compression block count is not zero") ∧
    stage4 initPState (u32le 9 ++ u32le 0 ++ u32le 0 ++ i32le 5 ++ [])
      = .error (.invalidFile "Additional to cook is not zero") ∧
    parsePre initPState c7bytes = .ok (c7preState, u32le 0 ++ u32le 1) ∧
    parseHeader initPState c7bytes
      = .error (.invalidFile "Compression block count is not zero") := by
  refine ⟨claim7_nonzero_counts_invalid_file.1 initPState 0 1 [] (by decide) (by decide),
          claim7_nonzero_counts_invalid_file.2.1 initPState 9 0 5 [] (by decide)
            (by decide) (by decide),
          by decide, ?_⟩
  exact claim7_nonzero_counts_invalid_file.2.2 initPState c7preState c7bytes
    (u32le 0 ++ u32le 1) _ (by decide)
    (claim7_nonzero_counts_invalid_file.1 c7preState 0 1 [] (by decide) (by decide))

theorem stage6_ok_shape (st st6 : PState) (s s6 : List Nat)
    (h : stage6 st s = .ok (st6, s6)) :
    st6.objectVersion = st.objectVersion ∧
    ¬ (VER_UE4_ADDED_CHUNKID_TO_ASSETDATA_AND_UPACKAGE ≤ st.objectVersion ∧
       st.objectVersion < VER_UE4_CHANGED_CHUNKID_TO_BE_AN_ARRAY_OF_CHUNKIDS) := by
  rw [stage6] at h
  by_cases h1 : VER_UE4_CHANGED_CHUNKID_TO_BE_AN_ARRAY_OF_CHUNKIDS ≤ st.objectVersion
  · rw [if_pos h1] at h
    cases hr : readI32le s with
    | error e => simp only [hr] at h; exact Except.noConfusion h
    | ok p =>
      obtain ⟨cnt, s1⟩ := p
      simp only [hr] at h
      cases hc : readChunkIds cnt.toNat [] s1 with
      | error e => simp only [hc] at h; exact Except.noConfusion h
      | ok q =>
        obtain ⟨ids, s2⟩ := q
        simp only [hc, Except.ok.injEq, Prod.mk.injEq] at h
        obtain ⟨hst, _⟩ := h
        subst hst
        exact ⟨rfl, fun hcon => absurd h1 (by omega)⟩
  · rw [if_neg h1] at h
    by_cases h2 : VER_UE4_ADDED_CHUNKID_TO_ASSETDATA_AND_UPACKAGE ≤ st.objectVersion
    · rw [if_pos h2] at h
      cases hr : readI32le s with
      | error e => simp only [hr] at h; exact Except.noConfusion h
      | ok p =>
        obtain ⟨v, s1⟩ := p
        simp only [hr, listSet, List.length_nil, Nat.lt_irrefl, if_false] at h
        exact Except.noConfusion h
    · rw [if_neg h2] at h
      simp only [Except.ok.injEq, Prod.mk.injEq] at h
      obtain ⟨hst, _⟩ := h
      subst hst
      exact ⟨rfl, fun hcon => h2 hcon.1⟩

theorem stage7_ok_objVer (st st7 : PState) (s s7 : List Nat)
    (h : stage7 st s = .ok (st7, s7)) : st7.objectVersion = st.objectVersion := by
  rw [stage7] at h
  by_cases h1 : VER_UE4_PRELOAD_DEPENDENCIES_IN_COOKED_EXPORTS ≤ st.objectVersion
  · rw [if_pos h1] at h
    cases hr : readI32le s with
    | error e => simp only [hr] at h; exact Except.noConfusion h
    | ok p =>
      obtain ⟨pcv, s1⟩ := p
      simp only [hr] at h
      cases hr2 : readI32le s1 with
      | error e => simp only [hr2] at h; exact Except.noConfusion h
      | ok q =>
        obtain ⟨pov, s2⟩ := q
        simp only [hr2, Except.ok.injEq, Prod.mk.injEq] at h
        obtain ⟨hst, _⟩ := h
        subst hst
        rfl
  · rw [if_neg h1] at h
    simp only [Except.ok.injEq, Prod.mk.injEq] at h
    obtain ⟨hst, _⟩ := h
    subst hst
    rfl

/-- C4: in the version window
`VER_UE4_ADDED_CHUNKID_TO_ASSETDATA_AND_UPACKAGE ≤ v <
VER_UE4_CHANGED_CHUNKID_TO_BE_AN_ARRAY_OF_CHUNKIDS` the chunk-id stage sets
`chunk_ids` to an empty vector and immediately assigns `chunk_ids[0]`, an
out-of-bounds index: the stage never succeeds (first conjunct), and therefore
no successful `parse_header` run can have an effective object version in that
window (second conjunct) — the single chunk id is never stored. -/
theorem claim4_chunk_id_gap_fatal :
    (∀ (st : PState) (s : List Nat),
      VER_UE4_ADDED_CHUNKID_TO_ASSETDATA_AND_UPACKAGE ≤ st.objectVersion →
      st.objectVersion < VER_UE4_CHANGED_CHUNKID_TO_BE_AN_ARRAY_OF_CHUNKIDS →
      exceptIsOk (stage6 st s) = false) ∧
    (∀ (st stF : PState) (s r : List Nat), parseHeader st s = .ok (stF, r) →
      ¬ (VER_UE4_ADDED_CHUNKID_TO_ASSETDATA_AND_UPACKAGE ≤ stF.objectVersion ∧
         stF.objectVersion < VER_UE4_CHANGED_CHUNKID_TO_BE_AN_ARRAY_OF_CHUNKIDS)) := by
  constructor
  · intro st s hge hlt
    rw [stage6, if_neg (by omega), if_pos hge]
    cases hr : readI32le s with
    | error e => simp only [hr]; rfl
    | ok p =>
      obtain ⟨v, s1⟩ := p
      simp only [hr, listSet, List.length_nil, Nat.lt_irrefl, if_false]
      rfl
  · intro st stF s r h
    rw [parseHeader] at h
    cases hp : parsePre st s with
    | error e => simp only [hp] at h; exact Except.noConfusion h
    | ok p3 =>
      obtain ⟨st3, s3⟩ := p3
      simp only [hp] at h
      cases h4 : stage4 st3 s3 with
      | error e => simp only [h4] at h; exact Except.noConfusion h
      | ok p4 =>
        obtain ⟨st4, s4⟩ := p4
        simp only [h4] at h
        cases h5 : stage5 st4 s4 with
        | error e => simp only [h5] at h; exact Except.noConfusion h
        | ok p5 =>
          obtain ⟨st5, s5⟩ := p5
          simp only [h5] at h
          cases h6 : stage6 st5 s5 with
          | error e => simp only [h6] at h; exact Except.noConfusion h
          | ok p6 =>
            obtain ⟨st6, s6⟩ := p6
            simp only [h6] at h
            have hs6 := stage6_ok_shape st5 st6 s5 s6 h6
            have hs7 := stage7_ok_objVer st6 stF s6 r h
            rw [hs7, hs6.1]
            exact hs6.2

/-- Witness for C4: the chunk stage fails outright at object version 300, and
the full parse of `c4bytes` (version 250, below the window) succeeds with an
effective version outside the window. -/
theorem claim4_chunk_id_gap_fatal_witness :
    exceptIsOk (stage6 { initPState with objectVersion := 300 } []) = false ∧
    parseHeader initPState c4bytes = .ok (c4state, []) ∧
    ¬ (VER_UE4_ADDED_CHUNKID_TO_ASSETDATA_AND_UPACKAGE ≤ c4state.objectVersion ∧
       c4state.objectVersion < VER_UE4_CHANGED_CHUNKID_TO_BE_AN_ARRAY_OF_CHUNKIDS) :=
  ⟨claim4_chunk_id_gap_fatal.1 _ [] (by decide) (by decide),
   by decide,
   claim4_chunk_id_gap_fatal.2 initPState c4state c4bytes [] (by decide)⟩

theorem writeBodies_length (sep : Bool) (f : Nat) :
    ∀ (exps : List ExportM) (st : WState),
      (writeBodies sep f exps st).1.length = exps.length := by
  intro exps
  induction exps with
  | nil => intro st; rfl
  | cons e rest ih => intro st; simp [writeBodies, ih]

theorem writePreloadDepsAux_count :
    ∀ (exps : List ExportM) (cnt : Int) (acc : List Nat),
      (writePreloadDepsAux exps cnt acc).1 = cnt + depTotalsSum exps := by
  intro exps
  induction exps with
  | nil => intro cnt acc; simp [writePreloadDepsAux, depTotalsSum]
  | cons e rest ih =>
    intro cnt acc
    simp only [writePreloadDepsAux, ih, depTotalsSum, List.map_cons, List.sum_cons]
    ring

theorem depTotalsSum_cons (e : ExportM) (rest : List ExportM) :
    depTotalsSum (e :: rest) = (exportDepTotal e.base : Int) + depTotalsSum rest := by
  simp [depTotalsSum]

theorem passB_spec (a : AssetModel) (bdso : Int) :
    ∀ (exps : List ExportM) (cs : List Int) (fedo : Int)
      (l : List ((Int × Int × Int) × List Nat)),
      cs.length = exps.length →
      passB a bdso exps cs fedo = .ok l →
      l.length = exps.length ∧
      (0 < l.length → ((l.map Prod.fst).getD 0 (0, 0, 0)).1 = cs.getD 0 0) ∧
      (∀ i, i + 1 < l.length →
        ((l.map Prod.fst).getD i (0, 0, 0)).1 + ((l.map Prod.fst).getD i (0, 0, 0)).2.1
          = ((l.map Prod.fst).getD (i + 1) (0, 0, 0)).1) ∧
      (0 < l.length →
        ((l.map Prod.fst).getD (l.length - 1) (0, 0, 0)).1
          + ((l.map Prod.fst).getD (l.length - 1) (0, 0, 0)).2.1 = bdso) ∧
      (∀ i, i < l.length →
        ((l.map Prod.fst).getD i (0, 0, 0)).2.2
          = if a.useSeparateBulkDataFiles then fedo + depTotalsSum (exps.take i)
            else -1) := by
  intro exps
  induction exps with
  | nil =>
    intro cs fedo l hlen h
    simp only [passB, Except.ok.injEq] at h
    subst h
    refine ⟨rfl, by simp, by simp, by simp, by simp⟩
  | cons e rest ih =>
    intro cs fedo l hlen h
    cases cs with
    | nil => simp at hlen
    | cons cHead csTail =>
      have hlen' : csTail.length = rest.length := by simpa using hlen
      simp only [passB] at h
      cases csTail with
      | nil =>
        have hrest : rest = [] := List.length_eq_zero.mp (by simpa using hlen'.symm)
        subst hrest
        simp only [passB] at h
        cases hw : writeExportHeader a e.base (bdso - cHead) cHead
            (if a.useSeparateBulkDataFiles then fedo else -1) with
        | error err => rw [hw] at h; exact Except.noConfusion h
        | ok bytes =>
          rw [hw] at h
          simp only [Except.ok.injEq] at h
          subst h
          refine ⟨rfl, by simp, by simp, ?_, ?_⟩
          · intro _
            simp only [List.map_cons, List.map_nil, List.length_cons, List.length_nil,
              Nat.sub_self, List.getD_cons_zero]
            ring
          · intro i hi
            have hi0 : i = 0 := by simpa using hi
            subst hi0
            simp [depTotalsSum]
      | cons c2 cs2 =>
        cases hw : writeExportHeader a e.base (c2 - cHead) cHead
            (if a.useSeparateBulkDataFiles then fedo else -1) with
        | error err => rw [hw] at h; exact Except.noConfusion h
        | ok bytes =>
          rw [hw] at h
          cases hp : passB a bdso rest (c2 :: cs2) (fedo + (exportDepTotal e.base : Int)) with
          | error err => rw [hp] at h; exact Except.noConfusion h
          | ok tail =>
            rw [hp] at h
            simp only [Except.ok.injEq] at h
            subst h
            obtain ⟨ihLen, ihHead, ihChain, ihLast, ihFedo⟩ :=
              ih (c2 :: cs2) _ tail hlen' hp
            have hpos : 0 < tail.length := by
              rw [ihLen, ← hlen']; simp
            have hhead : ((tail.map Prod.fst).getD 0 (0, 0, 0)).1 = c2 := by
              simpa using ihHead hpos
            refine ⟨by simp [ihLen], by simp, ?_, ?_, ?_⟩
            · intro i hi
              cases i with
              | zero =>
                simp only [List.map_cons, List.getD_cons_zero, List.getD_cons_succ, hhead]
                ring
              | succ j =>
                simp only [List.map_cons, List.getD_cons_succ]
                exact ihChain j (by simpa using hi)
            · intro _
              simp only [List.map_cons, List.length_cons]
              have hidx : tail.length + 1 - 1 = (tail.length - 1) + 1 := by omega
              rw [hidx, List.getD_cons_succ]
              exact ihLast hpos
            · intro i hi
              cases i with
              | zero =>
                simp [depTotalsSum]
              | succ j =>
                simp only [List.map_cons, List.getD_cons_succ, List.take_succ_cons,
                  depTotalsSum_cons]
                rw [ihFedo j (by simpa using hi)]
                by_cases hsep : a.useSeparateBulkDataFiles
                · simp only [hsep, if_true]
                  ring
                · simp [hsep]

theorem writeDataTail_shape (a : AssetModel) (st : WState) (cs : List Int)
    (hdr : AssetHeaderM) (magicPos : Int) (rec : WriteRecord) (stOut : WState)
    (h : writeDataTail a st cs hdr magicPos = .ok (rec, stOut)) :
    rec.finalHeader = hdr ∧ rec.magicPos = magicPos ∧ rec.categoryStarts = cs ∧
    ∃ patched,
      (a.exports ≠ [] → passB a hdr.bulkDataStartOffset a.exports cs 0 = .ok patched) ∧
      (a.exports = [] → patched = []) ∧
      rec.backPatched = patched.map Prod.fst := by
  rw [writeDataTail] at h
  cases hx : (if a.exports ≠ [] then passB a hdr.bulkDataStartOffset a.exports cs 0
              else .ok []) with
  | error e => rw [hx] at h; exact Except.noConfusion h
  | ok patched =>
    rw [hx] at h
    cases hw : writeHeader a hdr with
    | error e => rw [hw] at h; exact Except.noConfusion h
    | ok hb =>
      simp only [hw, Except.ok.injEq, Prod.mk.injEq] at h
      obtain ⟨hrec, _⟩ := h
      subst hrec
      refine ⟨rfl, rfl, rfl, patched, ?_, ?_, rfl⟩
      · intro hne
        rwa [if_pos hne] at hx
      · intro he
        rw [if_neg (by simp [he])] at hx
        injection hx with hx2
        exact hx2.symm

theorem writeDataRecord_shape (a : AssetModel) (c : List Nat) (u : Option (List Nat))
    (r : WriteRecord) (h : writeDataRecord a c u = some r) :
    r.finalHeader.bulkDataStartOffset = r.magicPos ∧
    (a.useSeparateBulkDataFiles = true →
      r.finalHeader.preloadDependencyCount = (writePreloadDepsAux a.exports 0 []).1) ∧
    ∃ cs patched,
      cs.length = a.exports.length ∧
      (a.exports ≠ [] →
        passB a r.finalHeader.bulkDataStartOffset a.exports cs 0 = .ok patched) ∧
      (a.exports = [] → patched = []) ∧
      r.backPatched = patched.map Prod.fst := by
  rw [writeDataRecord] at h
  split at h
  · next r2 buf ub heq =>
    injection h with h2
    subst h2
    by_cases hm : a.useSeparateBulkDataFiles ≠ u.isSome
    · rw [write_data, if_pos hm] at heq
      simp at heq
    · simp only [write_data, if_neg hm] at heq
      split at heq
      · simp at heq
      · next hdrBytes hw =>
        split at heq
        · simp at heq
        · next importBytes hi =>
          split at heq
          · simp at heq
          · next exportHeaderBytes he =>
            split at heq
            · -- separate-bulk branch
              next hsep =>
              split at heq
              · simp at heq
              · next rec2 st2 hwt =>
                simp only [Prod.mk.injEq, Except.ok.injEq] at heq
                obtain ⟨hrec, _⟩ := heq
                subst hrec
                obtain ⟨hfh, hmp, hcs, patched, hpb, hpe, hbp⟩ :=
                  writeDataTail_shape _ _ _ _ _ _ _ hwt
                rw [hfh, hmp]
                constructor
                · simp only [wput, List.length_cons, List.length_nil]
                  push_cast
                  omega
                · constructor
                  · intro _
                    simp [hsep]
                  · exact ⟨_, patched, writeBodies_length _ _ _ _, hpb, hpe, hbp⟩
            · -- single-stream branch
              next hsep =>
              split at heq
              · simp at heq
              · next rec2 st2 hwt =>
                simp only [Prod.mk.injEq, Except.ok.injEq] at heq
                obtain ⟨hrec, _⟩ := heq
                subst hrec
                obtain ⟨hfh, hmp, hcs, patched, hpb, hpe, hbp⟩ :=
                  writeDataTail_shape _ _ _ _ _ _ _ hwt
                rw [hfh, hmp]
                constructor
                · simp only [wput, List.length_cons, List.length_nil]
                  push_cast
                  omega
                · constructor
                  · intro hcon
                    exact absurd hcon (by simpa using hsep)
                  · exact ⟨_, patched, writeBodies_length _ _ _ _, hpb, hpe, hbp⟩
  · exact Option.noConfusion h

/-- C5: whenever `write_data` succeeds with at least one export, the export
headers back-patched in pass B are contiguous: each export's written
`serial_offset + serial_size` is the next export's written `serial_offset`, the
last export's sum is the written `bulk_data_start_offset`, and that offset is
the position at which the trailing magic was emitted. -/
theorem claim5_export_headers_contiguous (a : AssetModel) (c : List Nat)
    (u : Option (List Nat)) (r : WriteRecord)
    (h : writeDataRecord a c u = some r) (hn : a.exports ≠ []) :
    r.backPatched.length = a.exports.length ∧
    (∀ i, i + 1 < r.backPatched.length →
      (r.backPatched.getD i (0, 0, 0)).1 + (r.backPatched.getD i (0, 0, 0)).2.1
        = (r.backPatched.getD (i + 1) (0, 0, 0)).1) ∧
    (r.backPatched.getD (r.backPatched.length - 1) (0, 0, 0)).1
      + (r.backPatched.getD (r.backPatched.length - 1) (0, 0, 0)).2.1
      = r.finalHeader.bulkDataStartOffset ∧
    r.finalHeader.bulkDataStartOffset = r.magicPos := by
  obtain ⟨hbm, _, cs, patched, hcl, hpb, _, hbp⟩ := writeDataRecord_shape a c u r h
  obtain ⟨hLen, _, hChain, hLast, _⟩ := passB_spec a r.finalHeader.bulkDataStartOffset
    a.exports cs 0 patched hcl (hpb hn)
  have hpos : 0 < patched.length := by
    rw [hLen]
    cases hae : a.exports with
    | nil => exact absurd hae hn
    | cons x xs => simp
  rw [hbp]
  simp only [List.length_map]
  exact ⟨hLen, hChain, hLast hpos, hbm⟩

/-- Witness for C5 on `sepAsset`: both adjacency equations and the
bulk-data-start identity, via the theorem. -/
theorem claim5_export_headers_contiguous_witness :
    writeDataRecord sepAsset [] (some []) = some sepRecord ∧
    (sepRecord.backPatched.getD 0 (0, 0, 0)).1 + (sepRecord.backPatched.getD 0 (0, 0, 0)).2.1
      = (sepRecord.backPatched.getD 1 (0, 0, 0)).1 ∧
    (sepRecord.backPatched.getD 1 (0, 0, 0)).1 + (sepRecord.backPatched.getD 1 (0, 0, 0)).2.1
      = sepRecord.finalHeader.bulkDataStartOffset ∧
    sepRecord.finalHeader.bulkDataStartOffset = sepRecord.magicPos := by
  have hr : writeDataRecord sepAsset [] (some []) = some sepRecord := by decide
  have hmain := claim5_export_headers_contiguous sepAsset [] (some []) sepRecord hr
    (by decide)
  exact ⟨hr, hmain.2.1 0 (by rw [hmain.1]; decide), hmain.2.2.1, hmain.2.2.2⟩

/-- C6: in separate-bulk mode, the `first_export_dependency_offset`
back-patched for export `i` is the running prefix-sum of the four
preload-dependency list lengths over the preceding exports (0 for export 0),
and the final header's `preload_dependency_count` is the total over all
exports. -/
theorem claim6_preload_dependency_sums (a : AssetModel) (c : List Nat)
    (u : Option (List Nat)) (r : WriteRecord)
    (h : writeDataRecord a c u = some r) (hsep : a.useSeparateBulkDataFiles = true) :
    (∀ i, i < r.backPatched.length →
      (r.backPatched.getD i (0, 0, 0)).2.2 = depTotalsSum (a.exports.take i)) ∧
    r.finalHeader.preloadDependencyCount = depTotalsSum a.exports := by
  obtain ⟨_, hpc, cs, patched, hcl, hpb, hpe, hbp⟩ := writeDataRecord_shape a c u r h
  constructor
  · intro i hi
    rw [hbp] at hi ⊢
    simp only [List.length_map] at hi
    by_cases hn : a.exports = []
    · rw [hpe hn] at hi
      simp at hi
    · obtain ⟨_, _, _, _, hFedo⟩ := passB_spec a r.finalHeader.bulkDataStartOffset
        a.exports cs 0 patched hcl (hpb hn)
      rw [hFedo i hi]
      simp [hsep]
  · rw [hpc hsep, writePreloadDepsAux_count]
    simp

/-- Witness for C6 on `sepAsset`: export 0 gets offset 0, export 1 gets the
total of export 0's four lists, and the header count is the grand total. -/
theorem claim6_preload_dependency_sums_witness :
    writeDataRecord sepAsset [] (some []) = some sepRecord ∧
    (sepRecord.backPatched.getD 0 (0, 0, 0)).2.2 = 0 ∧
    (sepRecord.backPatched.getD 1 (0, 0, 0)).2.2 = depTotalsSum (sepAsset.exports.take 1) ∧
    sepRecord.finalHeader.preloadDependencyCount = depTotalsSum sepAsset.exports := by
  have hr : writeDataRecord sepAsset [] (some []) = some sepRecord := by decide
  have hmain := claim6_preload_dependency_sums sepAsset [] (some []) sepRecord hr
    (by decide)
  exact ⟨hr, (hmain.1 0 (by decide)).trans (by decide), hmain.1 1 (by decide), hmain.2⟩

end UnrealAsset
